import Mathlib

/-!
# Digital stopwatch (ATmega16): embedding of `digital_stopwatch.c` and `ext_int.c`

The globals of `digital_stopwatch.c` (`g_sec`, `g_min`, `g_hr`, `time[6]`) and the
I/O registers the control functions touch are fields of a state record.  All of
them are `uint8` in the source; they are natural numbers here and every store
that can leave the 8-bit range is reduced modulo 256.

The bit number `OCIE1A` comes from the device header, which is not part of the
sources, so every function that uses it takes it as an argument.  In the same
way `EXT_INT_init` takes the bit macros and bit numbers it uses as a record.
The callback pointers of `ext_int.c` are optional function identifiers, and a
call through a pointer is any function on the state.
-/

namespace DigitalStopwatch

/-! ## Index macros of `time[]` -/

/-- Index of the tens digit of the hours (`#define HR2 0`). -/
def HR2 : Fin 6 := 0
/-- Index of the units digit of the hours (`#define HR1 1`). -/
def HR1 : Fin 6 := 1
/-- Index of the tens digit of the minutes (`#define MIN2 2`). -/
def MIN2 : Fin 6 := 2
/-- Index of the units digit of the minutes (`#define MIN1 3`). -/
def MIN1 : Fin 6 := 3
/-- Index of the tens digit of the seconds (`#define SEC2 4`). -/
def SEC2 : Fin 6 := 4
/-- Index of the units digit of the seconds (`#define SEC1 5`). -/
def SEC1 : Fin 6 := 5

/-! ## State -/

/-- The globals of `digital_stopwatch.c` together with the register `TIMSK`. -/
structure State where
  /-- The array `uint8 time[6]`. -/
  time : Fin 6 → Nat
  /-- The seconds count `uint8 g_sec`. -/
  g_sec : Nat
  /-- The minutes count `uint8 g_min`. -/
  g_min : Nat
  /-- The hours count `uint8 g_hr`. -/
  g_hr : Nat
  /-- The timer interrupt mask register. -/
  TIMSK : Nat

/-- The assignment `time[i] = v` (a store into a `uint8`). -/
def State.setTime (s : State) (i : Fin 6) (v : Nat) : State :=
  { s with time := Function.update s.time i (v % 256) }

/-- The values of the globals at start-up (`time = {0,0,0,0,0,0}`, `g_sec = 0`,
`g_min = 0`, `g_hr = 0`); the content of `TIMSK` is whatever the timer
initialisation left there. -/
def initState (timsk : Nat) : State :=
  { time := fun _ => 0, g_sec := 0, g_min := 0, g_hr := 0, TIMSK := timsk }

/-! ## Control functions -/

/-- The function `reset` of `digital_stopwatch.c`. -/
def reset (s : State) : State :=
  let s : State := { s with g_sec := 0 }
  let s : State := { s with g_min := 0 }
  let s : State := { s with g_hr := 0 }
  let s : State := s.setTime SEC2 (s.g_sec / 10)
  let s : State := s.setTime SEC1 (s.g_sec % 10)
  let s : State := s.setTime MIN2 (s.g_min / 10)
  let s : State := s.setTime MIN1 (s.g_min % 10)
  let s : State := s.setTime HR2 (s.g_hr / 10)
  let s : State := s.setTime HR1 (s.g_hr % 10)
  s

/-- The function `pause`: `TIMSK &= ~(1<<OCIE1A)`.  The complement is taken on
the 16-bit `int` that `1<<OCIE1A` is, and the result is stored into the 8-bit
register. -/
def pause (OCIE1A : Nat) (s : State) : State :=
  { s with TIMSK := (s.TIMSK &&& (0xFFFF ^^^ (1 <<< OCIE1A))) % 256 }

/-- The function `resume`: `TIMSK |= (1<<OCIE1A)`, stored into the 8-bit
register. -/
def resume (OCIE1A : Nat) (s : State) : State :=
  { s with TIMSK := (s.TIMSK ||| (1 <<< OCIE1A)) % 256 }

/-- The function `stopwatch` of `digital_stopwatch.c`, statement by statement. -/
def stopwatch (s : State) : State :=
  let s : State := { s with g_sec := (s.g_sec + 1) % 256 }
  let s : State := if s.g_sec = 60 then
      let s : State := { s with g_sec := 0 }
      { s with g_min := (s.g_min + 1) % 256 }
    else s
  let s : State := if s.g_min = 60 then
      let s : State := { s with g_min := 0 }
      { s with g_hr := (s.g_hr + 1) % 256 }
    else s
  let s : State := if s.g_hr = 24 then { s with g_hr := 0 } else s
  let s : State := s.setTime SEC2 (s.g_sec / 10)
  let s : State := s.setTime SEC1 (s.g_sec % 10)
  let s : State := s.setTime MIN2 (s.g_min / 10)
  let s : State := s.setTime MIN1 (s.g_min % 10)
  let s : State := s.setTime HR2 (s.g_hr / 10)
  let s : State := s.setTime HR1 (s.g_hr % 10)
  s

/-- The counting mode: bit `OCIE1A` of `TIMSK` (the compare-match interrupt of
timer 1 is enabled). -/
def countingEnabled (OCIE1A : Nat) (s : State) : Bool :=
  s.TIMSK.testBit OCIE1A

/-- The six entries of `time[]` in index order `HR2 .. SEC1`. -/
def State.display (s : State) : List Nat :=
  List.ofFn s.time

/-- The decimal digits of the three counts, in the order of `time[]`. -/
def State.digits (s : State) : List Nat :=
  [s.g_hr / 10, s.g_hr % 10, s.g_min / 10, s.g_min % 10, s.g_sec / 10, s.g_sec % 10]

/-- All three counts are within the range of a 24-hour clock. -/
def State.inBounds (s : State) : Prop :=
  s.g_sec < 60 ∧ s.g_min < 60 ∧ s.g_hr < 24

/-- The six stores into `time[]` that end both `reset` and `stopwatch`. -/
def State.showTime (s : State) : State :=
  (((((s.setTime SEC2 (s.g_sec / 10)).setTime SEC1 (s.g_sec % 10)).setTime MIN2
    (s.g_min / 10)).setTime MIN1 (s.g_min % 10)).setTime HR2 (s.g_hr / 10)).setTime HR1
    (s.g_hr % 10)

/-- The counting part of `stopwatch` (the increment and the three carries). -/
def advance (s : State) : State :=
  let s : State := { s with g_sec := (s.g_sec + 1) % 256 }
  let s : State := if s.g_sec = 60 then
      let s : State := { s with g_sec := 0 }
      { s with g_min := (s.g_min + 1) % 256 }
    else s
  let s : State := if s.g_min = 60 then
      let s : State := { s with g_min := 0 }
      { s with g_hr := (s.g_hr + 1) % 256 }
    else s
  if s.g_hr = 24 then { s with g_hr := 0 } else s

/-! ## Sequences of control actions -/

/-- The four control actions: the three switch handlers and one call of the
timer callback `stopwatch`. -/
inductive Action where
  | reset
  | pause
  | resume
  | tick
  deriving DecidableEq, Repr

/-- The effect of one control action. -/
def step (OCIE1A : Nat) : Action → State → State
  | .reset, s => reset s
  | .pause, s => pause OCIE1A s
  | .resume, s => resume OCIE1A s
  | .tick, s => stopwatch s

/-- The effect of a finite sequence of control actions, first action first. -/
def run (OCIE1A : Nat) (acts : List Action) (s : State) : State :=
  acts.foldl (fun s a => step OCIE1A a s) s

/-- The states reached from the start-up values by finitely many control actions. -/
def Reachable (OCIE1A : Nat) (s : State) : Prop :=
  ∃ (timsk : Nat) (acts : List Action), s = run OCIE1A acts (initState timsk)

/-- Modelled from the spec: the delivery of one periodic tick.  The timer driver
(`timer1.c`, whose compare-match service routine calls the function registered
with `TIMER1_setCallBack(stopwatch)`) is not among the sources.  The spec's
`tick()` is a no-op if CountingEnabled is false and counts one second
otherwise; the counting is the source's `stopwatch`, CountingEnabled is bit
`OCIE1A` of `TIMSK`. -/
def tick (OCIE1A : Nat) (s : State) : State :=
  if countingEnabled OCIE1A s then stopwatch s else s

/-- Modelled from the spec: the effect of one event when the periodic tick comes
through the timer interrupt, whose driver `timer1.c` is not among the sources.
The three switch handlers are the source's `reset`, `pause` and `resume`; the
tick is the masked `tick`, which reaches `stopwatch` only while bit `OCIE1A` of
`TIMSK` is set. -/
def deliver (OCIE1A : Nat) : Action → State → State
  | .reset, s => reset s
  | .pause, s => pause OCIE1A s
  | .resume, s => resume OCIE1A s
  | .tick, s => tick OCIE1A s

/-- The effect of a finite sequence of events delivered this way, first event
first. -/
def runDelivered (OCIE1A : Nat) (acts : List Action) (s : State) : State :=
  acts.foldl (fun s a => deliver OCIE1A a s) s

/-! ## The refresh loop of `main` -/

/-- The two output registers the refresh loop writes. -/
structure Ports where
  /-- The enable lines of the six displays. -/
  PORTA : Nat
  /-- The digit lines to the decoder. -/
  PORTC : Nat
  deriving DecidableEq, Repr

/-- The program points of one iteration of the `for` loop. -/
inductive Point where
  /-- Before `PORTA = (1<<loop_idx)`. -/
  | entry
  /-- After `PORTA = (1<<loop_idx)`. -/
  | enabled
  /-- After `PORTC = time[5-loop_idx]`. -/
  | written
  /-- After `_delay_ms(4)`. -/
  | held
  /-- After `PORTA = (0<<loop_idx)`. -/
  | disabled
  deriving DecidableEq, Repr

/-- The registers as they are at one program point of the loop. -/
structure Sample where
  /-- The value of `loop_idx`. -/
  loop_idx : Nat
  /-- The program point. -/
  point : Point
  /-- The registers at that point. -/
  ports : Ports
  deriving DecidableEq, Repr

/-- The read `time[idx]` with `idx` an `int`; there is no value outside the array. -/
def readTime (time : Fin 6 → Nat) (idx : Int) : Option Nat :=
  if h : 0 ≤ idx ∧ idx < 6 then some (time ⟨idx.toNat, by omega⟩) else none

/-- The body of the `for` loop: the registers at each of its program points and
the registers it leaves. -/
def refreshBody (time : Fin 6 → Nat) (loop_idx : Nat) (p : Ports) :
    Option (List Sample × Ports) := do
  let p1 : Ports := { p with PORTA := (1 <<< loop_idx) % 256 }
  let d ← readTime time (5 - (loop_idx : Int))
  let p2 : Ports := { p1 with PORTC := d % 256 }
  let p3 : Ports := p2
  let p4 : Ports := { p3 with PORTA := (0 <<< loop_idx) % 256 }
  pure ([⟨loop_idx, .entry, p⟩, ⟨loop_idx, .enabled, p1⟩, ⟨loop_idx, .written, p2⟩,
    ⟨loop_idx, .held, p3⟩, ⟨loop_idx, .disabled, p4⟩], p4)

/-- The loop `for(loop_idx=0;loop_idx<6;loop_idx++)`, entered with the given
value of the 8-bit `loop_idx`. -/
def forLoop (time : Fin 6 → Nat) (loop_idx : Nat) (p : Ports) :
    Option (List Sample × Ports) :=
  if loop_idx < 6 then do
    let (tr, p) ← refreshBody time loop_idx p
    let (rest, p) ← forLoop time ((loop_idx + 1) % 256) p
    pure (tr ++ rest, p)
  else
    pure ([], p)
termination_by 6 - loop_idx
decreasing_by omega

/-- The first `n` passes of `while(1)`. -/
def whileLoop (time : Fin 6 → Nat) : Nat → Ports → Option (List Sample × Ports)
  | 0, p => pure ([], p)
  | n + 1, p => do
    let (tr, p) ← forLoop time 0 p
    let (rest, p) ← whileLoop time n p
    pure (tr ++ rest, p)

/-- The enable lines `PA0 .. PA5` (bits 0 to 5) that are set in a value of `PORTA`. -/
def activeLines (porta : Nat) : List Nat :=
  (List.range 6).filter (fun i => porta.testBit i)

/-- The claim on the enable lines at one program point: at most one of the six
lines is set; it is the line of `loop_idx` between the activation and the
deactivation, and no line before the activation and after the deactivation. -/
def Sample.oneActive (x : Sample) : Prop :=
  x.loop_idx < 6 ∧ (activeLines x.ports.PORTA).length ≤ 1 ∧
    (x.point = Point.enabled ∨ x.point = Point.written ∨ x.point = Point.held →
      activeLines x.ports.PORTA = [x.loop_idx]) ∧
    (x.point = Point.entry ∨ x.point = Point.disabled → activeLines x.ports.PORTA = [])

/-- Where a sample was taken: the value of `loop_idx` and the program point. -/
def Sample.position (x : Sample) : Nat × Point :=
  (x.loop_idx, x.point)

/-- The five program points of the iteration with `loop_idx = i`, in order. -/
def bodyPoints (i : Nat) : List (Nat × Point) :=
  [(i, Point.entry), (i, Point.enabled), (i, Point.written), (i, Point.held),
    (i, Point.disabled)]

/-- The program points of `d` consecutive iterations starting with `loop_idx = i`. -/
def passPoints : Nat → Nat → List (Nat × Point)
  | _, 0 => []
  | i, d + 1 => bodyPoints i ++ passPoints (i + 1) d

/-- The program points of `n` passes of `while(1)`, each with `loop_idx = 0 .. 5`. -/
def scanPoints : Nat → List (Nat × Point)
  | 0 => []
  | n + 1 => passPoints 0 6 ++ scanPoints n

/-! ## The digits the refresh loop puts out -/

/-- The values of `PORTC` right after each write `PORTC = time[5-loop_idx]`, in
the order of the writes. -/
def readsOf (tr : List Sample) : List Nat :=
  (tr.filter (fun x => x.point = Point.written)).map (fun x => x.ports.PORTC)

/-- The six values one pass of the loop writes to `PORTC` when `time[]` does not
change during the pass: `time[5]` first, `time[0]` last. -/
def passDigits (time : Fin 6 → Nat) : List Nat :=
  [time 5 % 256, time 4 % 256, time 3 % 256, time 2 % 256, time 1 % 256, time 0 % 256]

/-- The `for` loop with interrupts: before the iteration with `loop_idx = i` reads
`time[]`, the control actions `irq i` run to completion, one after the other
(for `i > 0` that is between the read of iteration `i - 1` and the read of
iteration `i`).  The result also holds the globals the pass ends with. -/
def forLoopIrq (OCIE1A : Nat) (irq : Nat → List Action) (s : State) (loop_idx : Nat)
    (p : Ports) : Option (List Sample × Ports × State) :=
  if loop_idx < 6 then do
    let s : State := run OCIE1A (irq loop_idx) s
    let (tr, p) ← refreshBody s.time loop_idx p
    let (rest, p, s) ← forLoopIrq OCIE1A irq s ((loop_idx + 1) % 256) p
    pure (tr ++ rest, p, s)
  else
    pure ([], p, s)
termination_by 6 - loop_idx
decreasing_by omega

/-- The globals at the moment the iteration with `loop_idx = k` reads `time[]`,
when the actions `irq 0, .., irq k` have run since the pass was entered. -/
def stateAt (OCIE1A : Nat) (irq : Nat → List Action) (s : State) : Nat → State
  | 0 => run OCIE1A (irq 0) s
  | k + 1 => run OCIE1A (irq (k + 1)) (stateAt OCIE1A irq s k)

/-- The values the iterations `loop_idx = i, .., i + d - 1` of the loop with
interrupts write to `PORTC`, entered with globals `s`. -/
def irqDigits (OCIE1A : Nat) (irq : Nat → List Action) : State → Nat → Nat → List Nat
  | _, _, 0 => []
  | s, i, d + 1 =>
    (run OCIE1A (irq i) s).time ⟨5 - i, by omega⟩ % 256 ::
      irqDigits OCIE1A irq (run OCIE1A (irq i) s) (i + 1) d

/-- The schedule of interrupts in which one call of `stopwatch` runs just before
the read of the iteration with `loop_idx = j`, and nothing else runs. -/
def tickBefore (j : Nat) (k : Nat) : List Action :=
  if k = j then [Action.tick] else []

/-- Six digits, in the order in which one pass reads them (`SEC1`, `SEC2`, `MIN1`,
`MIN2`, `HR1`, `HR2`), are the decimal digits of one valid time of day. -/
def isTimeOfDay (ds : List Nat) : Prop :=
  ∃ h m s : Nat, h < 24 ∧ m < 60 ∧ s < 60 ∧
    ds = [s % 10, s / 10, m % 10, m / 10, h % 10, h / 10]

/-- The values the iterations `loop_idx = i, .., i + d - 1` write to `PORTC` when
`time[]` does not change. -/
def digitsFrom (time : Fin 6 → Nat) : Nat → Nat → List Nat
  | _, 0 => []
  | i, d + 1 => time ⟨5 - i, by omega⟩ % 256 :: digitsFrom time (i + 1) d

/-- The digit on the decoder lines at one program point: once written, and while
it is held, the enable line of `loop_idx` is the active one and `PORTC` holds
`time[5-loop_idx]`. -/
def Sample.showsDigit (time : Fin 6 → Nat) (x : Sample) : Prop :=
  x.point = Point.written ∨ x.point = Point.held →
    activeLines x.ports.PORTA = [x.loop_idx] ∧
      x.ports.PORTC = time ⟨5 - x.loop_idx, by omega⟩ % 256

/-! ## The callback pointers of `ext_int.c` -/

/-- The state the interrupt service routines of `ext_int.c` work on: the globals
of the application and the three callback pointers.  A pointer is `none` for
`NULL_PTR` and `some f` for the address of the function `f`. -/
structure Machine (α : Type) where
  /-- The globals of `digital_stopwatch.c`. -/
  globals : State
  /-- The pointer `g_callBackPtr_INT0`. -/
  g_callBackPtr_INT0 : Option α
  /-- The pointer `g_callBackPtr_INT1`. -/
  g_callBackPtr_INT1 : Option α
  /-- The pointer `g_callBackPtr_INT2`. -/
  g_callBackPtr_INT2 : Option α

/-- The state at start-up: the three pointers are initialised to `NULL_PTR`. -/
def initMachine (α : Type) (timsk : Nat) : Machine α :=
  { globals := initState timsk, g_callBackPtr_INT0 := none, g_callBackPtr_INT1 := none,
    g_callBackPtr_INT2 := none }

/-- The function `EXT_INT0_setCallBack`. -/
def EXT_INT0_setCallBack {α : Type} (a_ptr : Option α) (m : Machine α) : Machine α :=
  { m with g_callBackPtr_INT0 := a_ptr }

/-- The function `EXT_INT1_setCallBack`. -/
def EXT_INT1_setCallBack {α : Type} (a_ptr : Option α) (m : Machine α) : Machine α :=
  { m with g_callBackPtr_INT1 := a_ptr }

/-- The function `EXT_INT2_setCallBack`. -/
def EXT_INT2_setCallBack {α : Type} (a_ptr : Option α) (m : Machine α) : Machine α :=
  { m with g_callBackPtr_INT2 := a_ptr }

/-- The routine `ISR(INT0_vect)`: the functions it calls, in order, and the state
it leaves.  `call f` is what a call of the function `f` does to the state. -/
def ISR_INT0 {α : Type} (call : α → Machine α → Machine α) (m : Machine α) :
    List α × Machine α :=
  match m.g_callBackPtr_INT0 with
  | some f => ([f], call f m)
  | none => ([], m)

/-- The routine `ISR(INT1_vect)`. -/
def ISR_INT1 {α : Type} (call : α → Machine α → Machine α) (m : Machine α) :
    List α × Machine α :=
  match m.g_callBackPtr_INT1 with
  | some f => ([f], call f m)
  | none => ([], m)

/-- The routine `ISR(INT2_vect)`. -/
def ISR_INT2 {α : Type} (call : α → Machine α → Machine α) (m : Machine α) :
    List α × Machine α :=
  match m.g_callBackPtr_INT2 with
  | some f => ([f], call f m)
  | none => ([], m)

/-- A call of one of the four functions of `digital_stopwatch.c` that `main`
registers as callbacks (`Action.tick` stands for `stopwatch`): they work on the
globals and leave the callback pointers alone. -/
def callAction (OCIE1A : Nat) (a : Action) (m : Machine Action) : Machine Action :=
  { m with globals := step OCIE1A a m.globals }

/-- The registrations with the external interrupts in `main`:
`EXT_INT0_setCallBack(reset)`, `EXT_INT1_setCallBack(pause)`,
`EXT_INT2_setCallBack(resume)`. -/
def mainRegister (m : Machine Action) : Machine Action :=
  let m : Machine Action := EXT_INT0_setCallBack (some Action.reset) m
  let m : Machine Action := EXT_INT1_setCallBack (some Action.pause) m
  let m : Machine Action := EXT_INT2_setCallBack (some Action.resume) m
  m

/-! ## The initialisation of the external interrupts (`ext_int.c`) -/

/-- The type `EXT_INT_Logic` of `ext_int.h`. -/
inductive EXT_INT_Logic where
  | LOW_LEVEL
  | ANY_CHANGE
  | FALLING_EDGE
  | RISING_EDGE
  deriving DecidableEq, Repr

/-- The integer value of an enumerator of `EXT_INT_Logic`. -/
def EXT_INT_Logic.toNat : EXT_INT_Logic → Nat
  | .LOW_LEVEL => 0
  | .ANY_CHANGE => 1
  | .FALLING_EDGE => 2
  | .RISING_EDGE => 3

/-- The type `EXT_INT_Resistor` of `ext_int.h`. -/
inductive EXT_INT_Resistor where
  | EXTERNAL_RESISTOR
  | INTERNAL_PULL_UP
  deriving DecidableEq, Repr

/-- The type `EXT_INT_ConfigType` of `ext_int.h`. -/
structure EXT_INT_ConfigType where
  /-- The field `uint8 intNum`. -/
  intNum : Nat
  /-- The field `logic`. -/
  logic : EXT_INT_Logic
  /-- The field `resistor`. -/
  resistor : EXT_INT_Resistor

/-- The 8-bit registers `EXT_INT_init` writes. -/
structure Regs where
  /-- The control register with the sense bits of `INT0` and `INT1`. -/
  MCUCR : Nat
  /-- The control and status register with the sense bit of `INT2`. -/
  MCUCSR : Nat
  /-- The general interrupt control register. -/
  GICR : Nat
  /-- The data direction register of port D. -/
  DDRD : Nat
  /-- The data register of port D. -/
  PORTD : Nat
  /-- The data direction register of port B. -/
  DDRB : Nat
  /-- The data register of port B. -/
  PORTB : Nat
  deriving DecidableEq, Repr

/-- What `EXT_INT_init` takes from the headers that are not among the sources:
the macros `SET_BIT(REG,BIT)` and `CLEAR_BIT(REG,BIT)` of `common_macros.h`, as
functions from the old content of the register and the bit number to the new
content, and the bit numbers of the device header. -/
structure Device where
  /-- The macro `SET_BIT(REG,BIT)`. -/
  SET_BIT : Nat → Nat → Nat
  /-- The macro `CLEAR_BIT(REG,BIT)`. -/
  CLEAR_BIT : Nat → Nat → Nat
  /-- The bit `INT0` of `GICR`. -/
  INT0 : Nat
  /-- The bit `INT1` of `GICR`. -/
  INT1 : Nat
  /-- The bit `INT2` of `GICR`. -/
  INT2 : Nat
  /-- The pin `PD2`. -/
  PD2 : Nat
  /-- The pin `PD3`. -/
  PD3 : Nat
  /-- The pin `PB2`. -/
  PB2 : Nat

/-- The function `EXT_INT_init` of `ext_int.c`. -/
def EXT_INT_init (d : Device) (Config_Ptr : EXT_INT_ConfigType) (r : Regs) : Regs :=
  match Config_Ptr.intNum with
  | 0 =>
    let r : Regs := { r with MCUCR := ((r.MCUCR &&& 0xFC) ||| Config_Ptr.logic.toNat) % 256 }
    let r : Regs := { r with GICR := d.SET_BIT r.GICR d.INT0 }
    let r : Regs := { r with DDRD := d.CLEAR_BIT r.DDRD d.PD2 }
    if Config_Ptr.resistor = EXT_INT_Resistor.INTERNAL_PULL_UP then
      { r with PORTD := d.SET_BIT r.PORTD d.PD2 }
    else r
  | 1 =>
    let r : Regs :=
      { r with MCUCR := ((r.MCUCR &&& 0xF3) ||| (Config_Ptr.logic.toNat <<< 2)) % 256 }
    let r : Regs := { r with GICR := d.SET_BIT r.GICR d.INT1 }
    let r : Regs := { r with DDRD := d.CLEAR_BIT r.DDRD d.PD3 }
    if Config_Ptr.resistor = EXT_INT_Resistor.INTERNAL_PULL_UP then
      { r with PORTD := d.SET_BIT r.PORTD d.PD3 }
    else r
  | 2 =>
    let r : Regs :=
      { r with MCUCSR := ((r.MCUCSR &&& 0xBF) ||| ((Config_Ptr.logic.toNat &&& 0x01) <<< 6)) % 256 }
    let r : Regs := { r with GICR := d.SET_BIT r.GICR d.INT2 }
    let r : Regs := { r with DDRB := d.CLEAR_BIT r.DDRB d.PB2 }
    if Config_Ptr.resistor = EXT_INT_Resistor.INTERNAL_PULL_UP then
      { r with PORTB := d.SET_BIT r.PORTB d.PB2 }
    else r
  | _ => r

/-! ## Basic facts about the control functions -/

theorem stopwatch_eq (s : State) : stopwatch s = (advance s).showTime := by
  simp only [stopwatch, advance, State.showTime]
  split_ifs <;> rfl

theorem reset_eq (s : State) :
    reset s = ({ s with g_sec := 0, g_min := 0, g_hr := 0 } : State).showTime := rfl

theorem showTime_time (s : State) :
    s.showTime.time = fun i =>
      if i = HR1 then s.g_hr % 10 % 256 else
      if i = HR2 then s.g_hr / 10 % 256 else
      if i = MIN1 then s.g_min % 10 % 256 else
      if i = MIN2 then s.g_min / 10 % 256 else
      if i = SEC1 then s.g_sec % 10 % 256 else
      if i = SEC2 then s.g_sec / 10 % 256 else s.time i := by
  funext i
  simp only [State.showTime, State.setTime, Function.update, eq_rec_constant, dite_eq_ite]

theorem showTime_display (s : State) :
    s.showTime.display = [s.g_hr / 10 % 256, s.g_hr % 10 % 256, s.g_min / 10 % 256,
      s.g_min % 10 % 256, s.g_sec / 10 % 256, s.g_sec % 10 % 256] := by
  rw [State.display, showTime_time]
  rfl

theorem advance_TIMSK (s : State) : (advance s).TIMSK = s.TIMSK := by
  simp only [advance]
  split_ifs <;> rfl

theorem advance_time (s : State) : (advance s).time = s.time := by
  simp only [advance]
  split_ifs <;> rfl

/-- One call of `stopwatch` on the state that shows `T` elapsed seconds gives the
state that shows `T + 1` elapsed seconds. -/
theorem advance_elapsed (s : State) (T : Nat)
    (hs : s.g_sec = T % 60) (hm : s.g_min = T / 60 % 60) (hh : s.g_hr = T / 3600 % 24) :
    (advance s).g_sec = (T + 1) % 60 ∧ (advance s).g_min = (T + 1) / 60 % 60 ∧
      (advance s).g_hr = (T + 1) / 3600 % 24 := by
  simp only [advance]
  split_ifs <;> simp_all <;> omega

theorem advance_inBounds (s : State) (h : s.inBounds) : (advance s).inBounds := by
  obtain ⟨h1, h2, h3⟩ := h
  simp only [advance, State.inBounds]
  split_ifs <;> simp_all <;> omega

theorem showTime_fields (s : State) :
    s.showTime.g_sec = s.g_sec ∧ s.showTime.g_min = s.g_min ∧ s.showTime.g_hr = s.g_hr ∧
      s.showTime.TIMSK = s.TIMSK :=
  ⟨rfl, rfl, rfl, rfl⟩

theorem showTime_digits (s : State) (h : s.inBounds) : s.showTime.display = s.digits := by
  obtain ⟨h1, h2, h3⟩ := h
  rw [showTime_display, State.digits]
  have e1 : s.g_hr / 10 % 256 = s.g_hr / 10 := by omega
  have e2 : s.g_hr % 10 % 256 = s.g_hr % 10 := by omega
  have e3 : s.g_min / 10 % 256 = s.g_min / 10 := by omega
  have e4 : s.g_min % 10 % 256 = s.g_min % 10 := by omega
  have e5 : s.g_sec / 10 % 256 = s.g_sec / 10 := by omega
  have e6 : s.g_sec % 10 % 256 = s.g_sec % 10 := by omega
  rw [e1, e2, e3, e4, e5, e6]

theorem showTime_inBounds (s : State) (h : s.inBounds) : s.showTime.inBounds := by
  obtain ⟨h1, h2, h3⟩ := h
  obtain ⟨e1, e2, e3, _⟩ := showTime_fields s
  unfold State.inBounds
  rw [e1, e2, e3]
  exact ⟨h1, h2, h3⟩

theorem showTime_shows (s : State) (h : s.inBounds) : s.showTime.display = s.showTime.digits := by
  obtain ⟨e1, e2, e3, _⟩ := showTime_fields s
  rw [showTime_digits s h]
  unfold State.digits
  rw [e1, e2, e3]

/-- The invariant of the control actions: counts within bounds and `time[]`
showing their digits. -/
theorem stopwatch_invariant (s : State) (h : s.inBounds) :
    (stopwatch s).inBounds ∧ (stopwatch s).display = (stopwatch s).digits := by
  have hb := advance_inBounds s h
  rw [stopwatch_eq]
  exact ⟨showTime_inBounds _ hb, showTime_shows _ hb⟩

theorem reset_invariant (s : State) :
    (reset s).inBounds ∧ (reset s).display = (reset s).digits := by
  have hb : ({ s with g_sec := 0, g_min := 0, g_hr := 0 } : State).inBounds :=
    ⟨Nat.zero_lt_succ 59, Nat.zero_lt_succ 59, Nat.zero_lt_succ 23⟩
  rw [reset_eq]
  exact ⟨showTime_inBounds _ hb, showTime_shows _ hb⟩

theorem step_invariant (b : Nat) (a : Action) (s : State)
    (h : s.inBounds ∧ s.display = s.digits) :
    (step b a s).inBounds ∧ (step b a s).display = (step b a s).digits := by
  cases a with
  | reset => exact reset_invariant s
  | pause => exact h
  | resume => exact h
  | tick => exact stopwatch_invariant s h.1

theorem run_invariant (b : Nat) (acts : List Action) :
    ∀ s : State, (s.inBounds ∧ s.display = s.digits) →
      (run b acts s).inBounds ∧ (run b acts s).display = (run b acts s).digits := by
  induction acts with
  | nil => intro s h; exact h
  | cons a acts ih => intro s h; exact ih (step b a s) (step_invariant b a s h)

theorem reachable_invariant (b : Nat) (s : State) (h : Reachable b s) :
    s.inBounds ∧ s.display = s.digits := by
  obtain ⟨timsk, acts, rfl⟩ := h
  apply run_invariant
  exact ⟨⟨Nat.zero_lt_succ 59, Nat.zero_lt_succ 59, Nat.zero_lt_succ 23⟩,
    by simp [State.display, State.digits, initState]⟩

theorem stopwatch_elapsed (s : State) (T : Nat)
    (hs : s.g_sec = T % 60) (hm : s.g_min = T / 60 % 60) (hh : s.g_hr = T / 3600 % 24) :
    (stopwatch s).g_sec = (T + 1) % 60 ∧ (stopwatch s).g_min = (T + 1) / 60 % 60 ∧
      (stopwatch s).g_hr = (T + 1) / 3600 % 24 := by
  obtain ⟨e1, e2, e3, _⟩ := showTime_fields (advance s)
  rw [stopwatch_eq, e1, e2, e3]
  exact advance_elapsed s T hs hm hh

theorem iterate_elapsed (n : Nat) (s : State) (T : Nat)
    (hs : s.g_sec = T % 60) (hm : s.g_min = T / 60 % 60) (hh : s.g_hr = T / 3600 % 24) :
    (stopwatch^[n] s).g_sec = (T + n) % 60 ∧ (stopwatch^[n] s).g_min = (T + n) / 60 % 60 ∧
      (stopwatch^[n] s).g_hr = (T + n) / 3600 % 24 := by
  induction n with
  | zero => exact ⟨hs, hm, hh⟩
  | succ n ih =>
    rw [Function.iterate_succ_apply']
    exact stopwatch_elapsed _ (T + n) ih.1 ih.2.1 ih.2.2

theorem iterate_inBounds (n : Nat) (s : State) (h : s.inBounds) : (stopwatch^[n] s).inBounds := by
  induction n with
  | zero => exact h
  | succ n ih =>
    rw [Function.iterate_succ_apply']
    exact (stopwatch_invariant _ ih).1

theorem iterate_display (n : Nat) (s : State) (h : s.inBounds) :
    (stopwatch^[n + 1] s).display = (stopwatch^[n + 1] s).digits := by
  rw [Function.iterate_succ_apply']
  exact (stopwatch_invariant _ (iterate_inBounds n s h)).2

theorem run_replicate_tick (b n : Nat) (s : State) :
    run b (List.replicate n Action.tick) s = stopwatch^[n] s := by
  induction n generalizing s with
  | zero => rfl
  | succ n ih =>
    rw [List.replicate_succ, Function.iterate_succ_apply]
    exact ih (stopwatch s)

theorem run_append (b : Nat) (l₁ l₂ : List Action) (s : State) :
    run b (l₁ ++ l₂) s = run b l₂ (run b l₁ s) :=
  List.foldl_append _ _ _ _

theorem run_pause (b : Nat) (s : State) : run b [Action.pause] s = pause b s := by
  simp only [run, List.foldl_cons, List.foldl_nil, step]

theorem run_resume_tick (b : Nat) (s : State) :
    run b [Action.resume, Action.tick] s = stopwatch (resume b s) := by
  simp only [run, List.foldl_cons, List.foldl_nil, step]

theorem run_pause_resume_tick (b : Nat) (s : State) :
    run b [Action.pause, Action.resume, Action.tick] s = stopwatch (resume b (pause b s)) := by
  simp only [run, List.foldl_cons, List.foldl_nil, step]

theorem initState_elapsed (timsk : Nat) :
    (initState timsk).g_sec = 0 % 60 ∧ (initState timsk).g_min = 0 / 60 % 60 ∧
      (initState timsk).g_hr = 0 / 3600 % 24 :=
  ⟨rfl, rfl, rfl⟩

/-! ## The bit of `TIMSK` that `pause` and `resume` write -/

theorem mask_testBit (b i : Nat) (hi : i < 8) :
    (0xFFFF ^^^ (1 <<< b)).testBit i = !(decide (b = i)) := by
  have h16 : (0xFFFF : Nat) = 2 ^ 16 - 1 := by norm_num
  rw [Nat.testBit_xor, h16, Nat.testBit_two_pow_sub_one, Nat.one_shiftLeft, Nat.testBit_two_pow]
  have : i < 16 := by omega
  simp [this]

theorem clear_testBit (x b i : Nat) :
    ((x &&& (0xFFFF ^^^ (1 <<< b))) % 256).testBit i =
      (decide (i < 8) && (x.testBit i && !(decide (b = i)))) := by
  have h256 : (256 : Nat) = 2 ^ 8 := by norm_num
  rw [h256, Nat.testBit_mod_two_pow, Nat.testBit_and]
  by_cases hi : i < 8
  · rw [mask_testBit b i hi]
  · simp [hi]

theorem set_testBit (x b i : Nat) :
    ((x ||| (1 <<< b)) % 256).testBit i =
      (decide (i < 8) && (x.testBit i || decide (b = i))) := by
  have h256 : (256 : Nat) = 2 ^ 8 := by norm_num
  rw [h256, Nat.testBit_mod_two_pow, Nat.testBit_or, Nat.one_shiftLeft, Nat.testBit_two_pow]

theorem pause_testBit (b : Nat) (s : State) (i : Nat) :
    (pause b s).TIMSK.testBit i =
      (decide (i < 8) && (s.TIMSK.testBit i && !(decide (b = i)))) :=
  clear_testBit s.TIMSK b i

theorem resume_testBit (b : Nat) (s : State) (i : Nat) :
    (resume b s).TIMSK.testBit i =
      (decide (i < 8) && (s.TIMSK.testBit i || decide (b = i))) :=
  set_testBit s.TIMSK b i

theorem clear_clear (x b : Nat) :
    (((x &&& (0xFFFF ^^^ (1 <<< b))) % 256) &&& (0xFFFF ^^^ (1 <<< b))) % 256 =
      (x &&& (0xFFFF ^^^ (1 <<< b))) % 256 := by
  apply Nat.eq_of_testBit_eq
  intro i
  rw [clear_testBit, clear_testBit]
  cases decide (i < 8) <;> cases x.testBit i <;> cases decide (b = i) <;> rfl

theorem set_set (x b : Nat) :
    (((x ||| (1 <<< b)) % 256) ||| (1 <<< b)) % 256 = (x ||| (1 <<< b)) % 256 := by
  apply Nat.eq_of_testBit_eq
  intro i
  rw [set_testBit, set_testBit]
  cases decide (i < 8) <;> cases x.testBit i <;> cases decide (b = i) <;> rfl

theorem pause_disables (b : Nat) (s : State) : countingEnabled b (pause b s) = false := by
  unfold countingEnabled
  rw [pause_testBit]
  simp

theorem resume_enables (b : Nat) (hb : b < 8) (s : State) :
    countingEnabled b (resume b s) = true := by
  unfold countingEnabled
  rw [resume_testBit]
  simp [hb]

theorem set_clear (x b : Nat) :
    (((x &&& (0xFFFF ^^^ (1 <<< b))) % 256) ||| (1 <<< b)) % 256 = (x ||| (1 <<< b)) % 256 := by
  apply Nat.eq_of_testBit_eq
  intro i
  rw [set_testBit, set_testBit, clear_testBit]
  cases decide (i < 8) <;> cases x.testBit i <;> cases decide (b = i) <;> rfl

theorem resume_pause (b : Nat) (s : State) : resume b (pause b s) = resume b s := by
  simp only [resume, pause, set_clear]

/-! ## Ticks and the counting mode -/

theorem tick_of_disabled (b : Nat) (s : State) (h : countingEnabled b s = false) :
    tick b s = s := by
  simp [tick, h]

theorem tick_of_enabled (b : Nat) (s : State) (h : countingEnabled b s = true) :
    tick b s = stopwatch s := by
  simp [tick, h]

theorem advance_TIMSK_irrelevant (s : State) (t : Nat) :
    advance { s with TIMSK := t } = { advance s with TIMSK := t } := by
  simp only [advance]
  split_ifs <;> rfl

theorem stopwatch_TIMSK_irrelevant (s : State) (t : Nat) :
    (stopwatch { s with TIMSK := t }).g_sec = (stopwatch s).g_sec ∧
      (stopwatch { s with TIMSK := t }).g_min = (stopwatch s).g_min ∧
      (stopwatch { s with TIMSK := t }).g_hr = (stopwatch s).g_hr ∧
      (stopwatch { s with TIMSK := t }).time = (stopwatch s).time := by
  obtain ⟨a1, a2, a3, _⟩ := showTime_fields ({ advance s with TIMSK := t } : State)
  obtain ⟨b1, b2, b3, _⟩ := showTime_fields (advance s)
  rw [stopwatch_eq, stopwatch_eq, advance_TIMSK_irrelevant, a1, a2, a3, b1, b2, b3,
    showTime_time, showTime_time]
  exact ⟨rfl, rfl, rfl, rfl⟩

theorem masked_ticks_then_tick (b : Nat) (hb : b < 8) (s : State) (k : Nat) :
    tick b (resume b ((tick b)^[k] (pause b s))) = stopwatch (resume b s) := by
  rw [Function.iterate_fixed (tick_of_disabled b _ (pause_disables b s)) k,
    resume_pause, tick_of_enabled b _ (resume_enables b hb s)]

/-! ## The refresh loop -/

theorem readTime_index (time : Fin 6 → Nat) (i : Nat) (hi : i < 6) :
    readTime time (5 - (i : Int)) = some (time ⟨5 - i, by omega⟩) := by
  unfold readTime
  rw [dif_pos ⟨by omega, by omega⟩]
  congr 2
  apply Fin.ext
  show (5 - (i : Int)).toNat = 5 - i
  omega

theorem refreshBody_eq (time : Fin 6 → Nat) (i : Nat) (hi : i < 6) (p : Ports) :
    refreshBody time i p = some
      ([⟨i, .entry, p⟩, ⟨i, .enabled, ⟨(1 <<< i) % 256, p.PORTC⟩⟩,
        ⟨i, .written, ⟨(1 <<< i) % 256, time ⟨5 - i, by omega⟩ % 256⟩⟩,
        ⟨i, .held, ⟨(1 <<< i) % 256, time ⟨5 - i, by omega⟩ % 256⟩⟩,
        ⟨i, .disabled, ⟨(0 <<< i) % 256, time ⟨5 - i, by omega⟩ % 256⟩⟩],
       ⟨(0 <<< i) % 256, time ⟨5 - i, by omega⟩ % 256⟩) := by
  unfold refreshBody
  rw [readTime_index time i hi]
  rfl

theorem forLoop_done (time : Fin 6 → Nat) (i : Nat) (hi : ¬ i < 6) (p : Ports) :
    forLoop time i p = some ([], p) := by
  rw [forLoop, if_neg hi]
  rfl

theorem forLoop_step (time : Fin 6 → Nat) (i : Nat) (hi : i < 6) (p : Ports) :
    forLoop time i p =
      (refreshBody time i p).bind fun r =>
        (forLoop time (i + 1) r.2).bind fun r' => some (r.1 ++ r'.1, r'.2) := by
  have e : (i + 1) % 256 = i + 1 := by omega
  rw [forLoop, if_pos hi, e]
  rfl

theorem activeLines_enabled (i : Nat) (hi : i < 6) : activeLines ((1 <<< i) % 256) = [i] := by
  interval_cases i <;> decide

theorem activeLines_disabled (i : Nat) : activeLines ((0 <<< i) % 256) = [] := by
  rw [Nat.zero_shiftLeft]
  decide

theorem refreshBody_oneActive (time : Fin 6 → Nat) (i : Nat) (hi : i < 6) (p : Ports)
    (h : activeLines p.PORTA = []) :
    ∃ tr q, refreshBody time i p = some (tr, q) ∧ activeLines q.PORTA = [] ∧
      tr.map Sample.position = bodyPoints i ∧ ∀ x ∈ tr, x.oneActive := by
  refine ⟨_, _, refreshBody_eq time i hi p, activeLines_disabled i, rfl, ?_⟩
  intro x hx
  simp only [List.mem_cons, List.mem_singleton, List.not_mem_nil, or_false] at hx
  have he := activeLines_enabled i hi
  have hd := activeLines_disabled i
  have hz : activeLines 0 = [] := by decide
  rcases hx with rfl | rfl | rfl | rfl | rfl <;>
    simp [Sample.oneActive, hi, he, hd, hz, h]

theorem forLoop_oneActive (time : Fin 6 → Nat) :
    ∀ (d i : Nat), i + d = 6 → ∀ p : Ports, activeLines p.PORTA = [] →
      ∃ tr q, forLoop time i p = some (tr, q) ∧ activeLines q.PORTA = [] ∧
        tr.map Sample.position = passPoints i d ∧ ∀ x ∈ tr, x.oneActive := by
  intro d
  induction d with
  | zero =>
    intro i hi p h
    exact ⟨[], p, forLoop_done time i (by omega) p, h, rfl, fun x hx => by cases hx⟩
  | succ d ih =>
    intro i hi p h
    obtain ⟨tr, q, e1, hq, hl, hg⟩ := refreshBody_oneActive time i (by omega) p h
    obtain ⟨tr', q', e2, hq', hl', hg'⟩ := ih (i + 1) (by omega) q hq
    refine ⟨tr ++ tr', q', ?_, hq', ?_, ?_⟩
    · rw [forLoop_step time i (by omega) p, e1, Option.bind, e2]
      rfl
    · rw [List.map_append, hl, hl']
      rfl
    · intro x hx
      rcases List.mem_append.mp hx with hx | hx
      · exact hg x hx
      · exact hg' x hx

theorem whileLoop_succ (time : Fin 6 → Nat) (n : Nat) (p : Ports) :
    whileLoop time (n + 1) p =
      (forLoop time 0 p).bind fun r =>
        (whileLoop time n r.2).bind fun r' => some (r.1 ++ r'.1, r'.2) := by
  rw [whileLoop]
  rfl

theorem whileLoop_oneActive (time : Fin 6 → Nat) :
    ∀ (n : Nat) (p : Ports), activeLines p.PORTA = [] →
      ∃ tr q, whileLoop time n p = some (tr, q) ∧ activeLines q.PORTA = [] ∧
        tr.map Sample.position = scanPoints n ∧ ∀ x ∈ tr, x.oneActive := by
  intro n
  induction n with
  | zero =>
    intro p h
    exact ⟨[], p, rfl, h, rfl, fun x hx => by cases hx⟩
  | succ n ih =>
    intro p h
    obtain ⟨tr, q, e1, hq, hl, hg⟩ := forLoop_oneActive time 6 0 rfl p h
    obtain ⟨tr', q', e2, hq', hl', hg'⟩ := ih q hq
    refine ⟨tr ++ tr', q', ?_, hq', ?_, ?_⟩
    · rw [whileLoop_succ, e1, Option.bind, e2]
      rfl
    · rw [List.map_append, hl, hl']
      rfl
    · intro x hx
      rcases List.mem_append.mp hx with hx | hx
      · exact hg x hx
      · exact hg' x hx

/-! ## The digits on the decoder lines -/

theorem readsOf_append (a b : List Sample) : readsOf (a ++ b) = readsOf a ++ readsOf b := by
  simp only [readsOf, List.filter_append, List.map_append]

theorem digitsFrom_zero (time : Fin 6 → Nat) : digitsFrom time 0 6 = passDigits time := rfl

theorem refreshBody_showsDigit (time : Fin 6 → Nat) (i : Nat) (hi : i < 6) (p : Ports) :
    ∃ tr q, refreshBody time i p = some (tr, q) ∧
      tr.map Sample.position = bodyPoints i ∧
      readsOf tr = [time ⟨5 - i, by omega⟩ % 256] ∧ ∀ x ∈ tr, x.showsDigit time := by
  refine ⟨_, _, refreshBody_eq time i hi p, rfl, ?_, ?_⟩
  · simp [readsOf]
  · intro x hx
    simp only [List.mem_cons, List.mem_singleton, List.not_mem_nil, or_false] at hx
    have he := activeLines_enabled i hi
    rcases hx with rfl | rfl | rfl | rfl | rfl <;>
      simp [Sample.showsDigit, he]

theorem forLoop_showsDigit (time : Fin 6 → Nat) :
    ∀ (d i : Nat), i + d = 6 → ∀ p : Ports,
      ∃ tr q, forLoop time i p = some (tr, q) ∧ tr.map Sample.position = passPoints i d ∧
        readsOf tr = digitsFrom time i d ∧ ∀ x ∈ tr, x.showsDigit time := by
  intro d
  induction d with
  | zero =>
    intro i hi p
    exact ⟨[], p, forLoop_done time i (by omega) p, rfl, rfl, fun x hx => by cases hx⟩
  | succ d ih =>
    intro i hi p
    obtain ⟨tr, q, e1, hl, hr, hg⟩ := refreshBody_showsDigit time i (by omega) p
    obtain ⟨tr', q', e2, hl', hr', hg'⟩ := ih (i + 1) (by omega) q
    refine ⟨tr ++ tr', q', ?_, ?_, ?_, ?_⟩
    · rw [forLoop_step time i (by omega) p, e1, Option.bind, e2]
      rfl
    · rw [List.map_append, hl, hl']
      rfl
    · rw [readsOf_append, hr, hr']
      rfl
    · intro x hx
      rcases List.mem_append.mp hx with hx | hx
      · exact hg x hx
      · exact hg' x hx

theorem whileLoop_showsDigit (time : Fin 6 → Nat) :
    ∀ (n : Nat) (p : Ports),
      ∃ tr q, whileLoop time n p = some (tr, q) ∧ tr.map Sample.position = scanPoints n ∧
        readsOf tr = (List.replicate n (passDigits time)).flatten ∧
        ∀ x ∈ tr, x.showsDigit time := by
  intro n
  induction n with
  | zero =>
    intro p
    exact ⟨[], p, rfl, rfl, rfl, fun x hx => by cases hx⟩
  | succ n ih =>
    intro p
    obtain ⟨tr, q, e1, hl, hr, hg⟩ := forLoop_showsDigit time 6 0 rfl p
    obtain ⟨tr', q', e2, hl', hr', hg'⟩ := ih q
    refine ⟨tr ++ tr', q', ?_, ?_, ?_, ?_⟩
    · rw [whileLoop_succ, e1, Option.bind, e2]
      rfl
    · rw [List.map_append, hl, hl']
      rfl
    · rw [readsOf_append, hr, hr', digitsFrom_zero, List.replicate_succ, List.flatten_cons]
    · intro x hx
      rcases List.mem_append.mp hx with hx | hx
      · exact hg x hx
      · exact hg' x hx

/-! ## Entries of `time[]` and the mode under `reset` and `stopwatch` -/

theorem display_entries (s : State) (h : s.display = s.digits) :
    s.time HR2 = s.g_hr / 10 ∧ s.time HR1 = s.g_hr % 10 ∧ s.time MIN2 = s.g_min / 10 ∧
      s.time MIN1 = s.g_min % 10 ∧ s.time SEC2 = s.g_sec / 10 ∧ s.time SEC1 = s.g_sec % 10 := by
  have e : ∀ k (hk : k < 6), s.time ⟨k, hk⟩ = s.digits.getD k 0 := by
    intro k hk
    rw [← h, State.display, List.getD_eq_getElem _ _ (by simpa using hk), List.getElem_ofFn]
  exact ⟨e 0 (by omega), e 1 (by omega), e 2 (by omega), e 3 (by omega), e 4 (by omega),
    e 5 (by omega)⟩

theorem fin6_cases (i : Fin 6) :
    i = HR2 ∨ i = HR1 ∨ i = MIN2 ∨ i = MIN1 ∨ i = SEC2 ∨ i = SEC1 := by
  unfold HR1 HR2 MIN1 MIN2 SEC1 SEC2
  omega

theorem reachable_digits (b : Nat) (s : State) (h : Reachable b s) :
    (∀ i : Fin 6, s.time i ≤ 9) ∧ s.time HR2 ≤ 2 ∧ s.time MIN2 ≤ 5 ∧ s.time SEC2 ≤ 5 := by
  obtain ⟨⟨b1, b2, b3⟩, hd⟩ := reachable_invariant b s h
  obtain ⟨e1, e2, e3, e4, e5, e6⟩ := display_entries s hd
  refine ⟨?_, by omega, by omega, by omega⟩
  intro i
  rcases fin6_cases i with rfl | rfl | rfl | rfl | rfl | rfl <;> omega

theorem reset_TIMSK (s : State) : (reset s).TIMSK = s.TIMSK := by
  rw [reset_eq]
  exact (showTime_fields _).2.2.2

theorem stopwatch_TIMSK (s : State) : (stopwatch s).TIMSK = s.TIMSK := by
  rw [stopwatch_eq, (showTime_fields _).2.2.2, advance_TIMSK]

theorem step_keeps_disabled (b : Nat) (a : Action) (ha : a ≠ Action.resume) (s : State)
    (h : countingEnabled b s = false) : countingEnabled b (step b a s) = false := by
  cases a with
  | reset =>
    unfold countingEnabled at h ⊢
    simp only [step]
    rw [reset_TIMSK]
    exact h
  | pause => exact pause_disables b s
  | resume => exact absurd rfl ha
  | tick =>
    unfold countingEnabled at h ⊢
    simp only [step]
    rw [stopwatch_TIMSK]
    exact h

theorem run_keeps_disabled (b : Nat) (acts : List Action) :
    ∀ s : State, Action.resume ∉ acts → countingEnabled b s = false →
      countingEnabled b (run b acts s) = false := by
  induction acts with
  | nil => intro s _ h; exact h
  | cons a acts ih =>
    intro s hn h
    have h1 : a ≠ Action.resume := fun e => hn (e ▸ List.mem_cons_self _ _)
    have h2 : Action.resume ∉ acts := fun e => hn (List.mem_cons_of_mem _ e)
    exact ih (step b a s) h2 (step_keeps_disabled b a h1 s h)

/-! ## The sense-control fields written by `EXT_INT_init` -/

theorem senseField0 (x : Nat) (L : EXT_INT_Logic) (i : Nat) (h8 : i < 8) :
    (((x &&& 0xFC) ||| L.toNat) % 256).testBit i =
      if i < 2 then L.toNat.testBit i else x.testBit i := by
  have h256 : (256 : Nat) = 2 ^ 8 := by norm_num
  rw [h256, Nat.testBit_mod_two_pow, Nat.testBit_or, Nat.testBit_and]
  simp only [h8, decide_True, Bool.true_and]
  interval_cases i <;> cases L <;> generalize x.testBit _ = b <;> cases b <;> decide

theorem senseField1 (x : Nat) (L : EXT_INT_Logic) (i : Nat) (h8 : i < 8) :
    (((x &&& 0xF3) ||| (L.toNat <<< 2)) % 256).testBit i =
      if 2 ≤ i ∧ i < 4 then L.toNat.testBit (i - 2) else x.testBit i := by
  have h256 : (256 : Nat) = 2 ^ 8 := by norm_num
  rw [h256, Nat.testBit_mod_two_pow, Nat.testBit_or, Nat.testBit_and]
  simp only [h8, decide_True, Bool.true_and]
  interval_cases i <;> cases L <;> generalize x.testBit _ = b <;> cases b <;> decide

theorem senseField2 (x : Nat) (L : EXT_INT_Logic) (i : Nat) (h8 : i < 8) :
    (((x &&& 0xBF) ||| ((L.toNat &&& 0x01) <<< 6)) % 256).testBit i =
      if i = 6 then L.toNat.testBit 0 else x.testBit i := by
  have h256 : (256 : Nat) = 2 ^ 8 := by norm_num
  rw [h256, Nat.testBit_mod_two_pow, Nat.testBit_or, Nat.testBit_and]
  simp only [h8, decide_True, Bool.true_and]
  interval_cases i <;> cases L <;> generalize x.testBit _ = b <;> cases b <;> decide

theorem senseValue0 (x : Nat) (L : EXT_INT_Logic) :
    (((x &&& 0xFC) ||| L.toNat) % 256) % 4 = L.toNat := by
  apply Nat.eq_of_testBit_eq
  intro i
  have h4 : (4 : Nat) = 2 ^ 2 := by norm_num
  rw [h4, Nat.testBit_mod_two_pow]
  by_cases h2 : i < 2
  · rw [senseField0 x L i (by omega)]
    simp [h2]
  · have hL : L.toNat < 2 ^ i := by
      have : L.toNat < 4 := by cases L <;> decide
      calc L.toNat < 2 ^ 2 := this
        _ ≤ 2 ^ i := Nat.pow_le_pow_right (by norm_num) (by omega)
    simp [h2, Nat.testBit_lt_two_pow hL]

theorem toNat_lt (L : EXT_INT_Logic) : L.toNat < 4 := by
  cases L <;> decide

theorem senseValue1 (x : Nat) (L : EXT_INT_Logic) :
    (((x &&& 0xF3) ||| (L.toNat <<< 2)) % 256) / 4 % 4 = L.toNat := by
  apply Nat.eq_of_testBit_eq
  intro i
  have h4 : (4 : Nat) = 2 ^ 2 := by norm_num
  rw [h4, Nat.testBit_mod_two_pow, ← Nat.shiftRight_eq_div_pow, Nat.testBit_shiftRight]
  by_cases h2 : i < 2
  · rw [senseField1 x L (2 + i) (by omega)]
    have e : 2 + i - 2 = i := by omega
    simp [h2, e]
    omega
  · have hL : L.toNat < 2 ^ i := by
      calc L.toNat < 2 ^ 2 := toNat_lt L
        _ ≤ 2 ^ i := Nat.pow_le_pow_right (by norm_num) (by omega)
    simp [h2, Nat.testBit_lt_two_pow hL]

theorem testBit_mod_two (y i : Nat) :
    (y % 2).testBit i = (decide (i < 1) && y.testBit i) :=
  Nat.testBit_mod_two_pow y 1 i

theorem senseValue2 (x : Nat) (L : EXT_INT_Logic) :
    (((x &&& 0xBF) ||| ((L.toNat &&& 0x01) <<< 6)) % 256) / 64 % 2 = L.toNat % 2 := by
  apply Nat.eq_of_testBit_eq
  intro i
  have h64 : (64 : Nat) = 2 ^ 6 := by norm_num
  rw [testBit_mod_two, testBit_mod_two, h64, ← Nat.shiftRight_eq_div_pow,
    Nat.testBit_shiftRight]
  by_cases h1 : i < 1
  · have e : i = 0 := by omega
    subst e
    rw [senseField2 x L 6 (by omega)]
    simp
  · simp [h1]

theorem EXT_INT_init_zero (d : Device) (c : EXT_INT_ConfigType) (h : c.intNum = 0) (r : Regs) :
    (EXT_INT_init d c r).MCUCR = ((r.MCUCR &&& 0xFC) ||| c.logic.toNat) % 256 ∧
      (EXT_INT_init d c r).MCUCSR = r.MCUCSR := by
  simp only [EXT_INT_init, h]
  split_ifs <;> exact ⟨rfl, rfl⟩

theorem EXT_INT_init_one (d : Device) (c : EXT_INT_ConfigType) (h : c.intNum = 1) (r : Regs) :
    (EXT_INT_init d c r).MCUCR = ((r.MCUCR &&& 0xF3) ||| (c.logic.toNat <<< 2)) % 256 ∧
      (EXT_INT_init d c r).MCUCSR = r.MCUCSR := by
  simp only [EXT_INT_init, h]
  split_ifs <;> exact ⟨rfl, rfl⟩

theorem EXT_INT_init_two (d : Device) (c : EXT_INT_ConfigType) (h : c.intNum = 2) (r : Regs) :
    (EXT_INT_init d c r).MCUCSR =
        ((r.MCUCSR &&& 0xBF) ||| ((c.logic.toNat &&& 0x01) <<< 6)) % 256 ∧
      (EXT_INT_init d c r).MCUCR = r.MCUCR := by
  simp only [EXT_INT_init, h]
  split_ifs <;> exact ⟨rfl, rfl⟩

theorem EXT_INT_init_other (d : Device) (c : EXT_INT_ConfigType) (h0 : c.intNum ≠ 0)
    (h1 : c.intNum ≠ 1) (h2 : c.intNum ≠ 2) (r : Regs) : EXT_INT_init d c r = r := by
  unfold EXT_INT_init
  split
  · exact absurd ‹_› h0
  · exact absurd ‹_› h1
  · exact absurd ‹_› h2
  · rfl

/-! ## The refresh loop with interrupts between the reads -/

theorem forLoopIrq_done (b : Nat) (irq : Nat → List Action) (s : State) (i : Nat)
    (hi : ¬ i < 6) (p : Ports) : forLoopIrq b irq s i p = some ([], p, s) := by
  rw [forLoopIrq, if_neg hi]
  rfl

theorem forLoopIrq_step (b : Nat) (irq : Nat → List Action) (s : State) (i : Nat)
    (hi : i < 6) (p : Ports) :
    forLoopIrq b irq s i p =
      (refreshBody (run b (irq i) s).time i p).bind fun r =>
        (forLoopIrq b irq (run b (irq i) s) (i + 1) r.2).bind fun r' =>
          some (r.1 ++ r'.1, r'.2) := by
  have e : (i + 1) % 256 = i + 1 := by omega
  rw [forLoopIrq, if_pos hi, e]
  rfl

theorem forLoopIrq_reads (b : Nat) (irq : Nat → List Action) :
    ∀ (d i : Nat), i + d = 6 → ∀ (s : State) (p : Ports),
      ∃ tr q s', forLoopIrq b irq s i p = some (tr, q, s') ∧
        tr.map Sample.position = passPoints i d ∧ readsOf tr = irqDigits b irq s i d := by
  intro d
  induction d with
  | zero =>
    intro i hi s p
    exact ⟨[], p, s, forLoopIrq_done b irq s i (by omega) p, rfl, rfl⟩
  | succ d ih =>
    intro i hi s p
    obtain ⟨tr, q, e1, hl, hr, _⟩ := refreshBody_showsDigit (run b (irq i) s).time i (by omega) p
    obtain ⟨tr', q', s', e2, hl', hr'⟩ := ih (i + 1) (by omega) (run b (irq i) s) q
    refine ⟨tr ++ tr', q', s', ?_, ?_, ?_⟩
    · rw [forLoopIrq_step b irq s i (by omega) p, e1, Option.bind, e2]
      rfl
    · rw [List.map_append, hl, hl']
      rfl
    · rw [readsOf_append, hr, hr']
      rfl

theorem irqDigits_pass (b : Nat) (irq : Nat → List Action) (s : State) :
    irqDigits b irq s 0 6 =
      [(stateAt b irq s 0).time 5 % 256, (stateAt b irq s 1).time 4 % 256,
        (stateAt b irq s 2).time 3 % 256, (stateAt b irq s 3).time 2 % 256,
        (stateAt b irq s 4).time 1 % 256, (stateAt b irq s 5).time 0 % 256] := rfl

theorem reachable_run (b : Nat) (acts : List Action) (s : State) (h : Reachable b s) :
    Reachable b (run b acts s) := by
  obtain ⟨timsk, acts0, rfl⟩ := h
  exact ⟨timsk, acts0 ++ acts, (run_append b acts0 acts _).symm⟩

theorem reachable_stateAt (b : Nat) (irq : Nat → List Action) (s : State)
    (h : Reachable b s) : ∀ k, Reachable b (stateAt b irq s k) := by
  intro k
  induction k with
  | zero => exact reachable_run b _ s h
  | succ k ih => exact reachable_run b _ _ ih

theorem reachable_entries (b : Nat) (u : State) (h : Reachable b u) :
    (u.g_sec < 60 ∧ u.g_min < 60 ∧ u.g_hr < 24) ∧
      u.time 0 % 256 = u.g_hr / 10 ∧ u.time 1 % 256 = u.g_hr % 10 ∧
      u.time 2 % 256 = u.g_min / 10 ∧ u.time 3 % 256 = u.g_min % 10 ∧
      u.time 4 % 256 = u.g_sec / 10 ∧ u.time 5 % 256 = u.g_sec % 10 := by
  obtain ⟨⟨b1, b2, b3⟩, hd⟩ := reachable_invariant b u h
  obtain ⟨e1, e2, e3, e4, e5, e6⟩ := display_entries u hd
  have f1 : u.time 0 = u.g_hr / 10 := e1
  have f2 : u.time 1 = u.g_hr % 10 := e2
  have f3 : u.time 2 = u.g_min / 10 := e3
  have f4 : u.time 3 = u.g_min % 10 := e4
  have f5 : u.time 4 = u.g_sec / 10 := e5
  have f6 : u.time 5 = u.g_sec % 10 := e6
  rw [f1, f2, f3, f4, f5, f6]
  refine ⟨⟨b1, b2, b3⟩, ?_, ?_, ?_, ?_, ?_, ?_⟩ <;> omega

theorem forLoopIrq_digits (b : Nat) (irq : Nat → List Action) (s : State)
    (h : Reachable b s) (p : Ports) :
    ∃ tr q s', forLoopIrq b irq s 0 p = some (tr, q, s') ∧
      tr.map Sample.position = passPoints 0 6 ∧
      readsOf tr =
        [(stateAt b irq s 0).g_sec % 10, (stateAt b irq s 1).g_sec / 10,
          (stateAt b irq s 2).g_min % 10, (stateAt b irq s 3).g_min / 10,
          (stateAt b irq s 4).g_hr % 10, (stateAt b irq s 5).g_hr / 10] := by
  obtain ⟨tr, q, s', e, hl, hr⟩ := forLoopIrq_reads b irq 6 0 rfl s p
  refine ⟨tr, q, s', e, hl, ?_⟩
  rw [hr, irqDigits_pass,
    (reachable_entries b _ (reachable_stateAt b irq s h 0)).2.2.2.2.2.2,
    (reachable_entries b _ (reachable_stateAt b irq s h 1)).2.2.2.2.2.1,
    (reachable_entries b _ (reachable_stateAt b irq s h 2)).2.2.2.2.1,
    (reachable_entries b _ (reachable_stateAt b irq s h 3)).2.2.2.1,
    (reachable_entries b _ (reachable_stateAt b irq s h 4)).2.2.1,
    (reachable_entries b _ (reachable_stateAt b irq s h 5)).2.1]

theorem stateAt_quiet (b : Nat) (irq : Nat → List Action) (s : State) (n : Nat)
    (hq : ∀ k : Nat, 1 ≤ k → k ≤ n → irq k = []) :
    ∀ k, k ≤ n → stateAt b irq s k = run b (irq 0) s := by
  intro k
  induction k with
  | zero => intro _; rfl
  | succ k ih =>
    intro hk
    rw [stateAt, hq (k + 1) (by omega) hk, ih (by omega)]
    rfl

theorem not_isTimeOfDay_29 : ¬ isTimeOfDay [9, 5, 9, 5, 9, 2] := by
  rintro ⟨h, m, s, hh, _, _, e⟩
  simp only [List.cons.injEq, and_true] at e
  omega

theorem torn_hours (b : Nat) (S : State) (p : Ports) (hr : Reachable b S)
    (h19 : S.g_hr = 19) (hm : S.g_min = 59) (hs : S.g_sec = 59) :
    ∃ tr q s', forLoopIrq b (tickBefore 5) S 0 p =
        some (tr, q, s') ∧ readsOf tr = [9, 5, 9, 5, 9, 2] := by
  obtain ⟨tr, q, s', e, _, hd⟩ :=
    forLoopIrq_digits b (tickBefore 5) S hr p
  refine ⟨tr, q, s', e, ?_⟩
  have hq : ∀ k, k ≤ 4 →
      stateAt b (tickBefore 5) S k = S := by
    intro k hk
    have hq : ∀ j : Nat, 1 ≤ j → j ≤ 4 → tickBefore 5 j = [] := by
      intro j _ h4
      exact if_neg (by omega)
    rw [stateAt_quiet b (tickBefore 5) S 4 hq k hk]
    have h0 : tickBefore 5 0 = [] := if_neg (by omega)
    rw [h0]
    rfl
  have h5 : stateAt b (tickBefore 5) S 5 = stopwatch S := by
    rw [stateAt, hq 4 (by omega)]
    have h5 : tickBefore 5 (4 + 1) = [Action.tick] := if_pos rfl
    rw [h5]
    simp only [run, List.foldl_cons, List.foldl_nil, step]
  have hh : (stopwatch S).g_hr = 20 := by
    have := (stopwatch_elapsed S 71999 (by omega) (by omega) (by omega)).2.2
    omega
  rw [hd, hq 0 (by omega), hq 1 (by omega), hq 2 (by omega), hq 3 (by omega),
    hq 4 (by omega), h5, hh, h19, hm, hs]

/-! ## A paused stopwatch that shows 0:00:00 -/

theorem reset_zero (s : State) :
    (reset s).g_sec = 0 ∧ (reset s).g_min = 0 ∧ (reset s).g_hr = 0 ∧
      (reset s).display = [0, 0, 0, 0, 0, 0] := by
  obtain ⟨_, hd⟩ := reset_invariant s
  have z : (reset s).g_sec = 0 ∧ (reset s).g_min = 0 ∧ (reset s).g_hr = 0 := by
    rw [reset_eq]
    exact ⟨rfl, rfl, rfl⟩
  refine ⟨z.1, z.2.1, z.2.2, ?_⟩
  rw [hd, State.digits, z.1, z.2.1, z.2.2]

theorem reset_keeps_mode (b : Nat) (s : State) :
    countingEnabled b (reset s) = countingEnabled b s := by
  unfold countingEnabled
  rw [reset_TIMSK]

theorem stopwatch_keeps_mode (b : Nat) (s : State) :
    countingEnabled b (stopwatch s) = countingEnabled b s := by
  unfold countingEnabled
  rw [stopwatch_TIMSK]

theorem deliver_keeps_zero (b : Nat) (a : Action) (ha : a ≠ Action.resume) (s : State)
    (h : countingEnabled b s = false ∧ s.g_sec = 0 ∧ s.g_min = 0 ∧ s.g_hr = 0 ∧
      s.display = [0, 0, 0, 0, 0, 0]) :
    countingEnabled b (deliver b a s) = false ∧ (deliver b a s).g_sec = 0 ∧
      (deliver b a s).g_min = 0 ∧ (deliver b a s).g_hr = 0 ∧
      (deliver b a s).display = [0, 0, 0, 0, 0, 0] := by
  obtain ⟨hm, h1, h2, h3, hd⟩ := h
  cases a with
  | reset =>
    simp only [deliver]
    obtain ⟨z1, z2, z3, z4⟩ := reset_zero s
    exact ⟨by rw [reset_keeps_mode, hm], z1, z2, z3, z4⟩
  | pause =>
    simp only [deliver]
    exact ⟨pause_disables b s, h1, h2, h3, hd⟩
  | resume => exact absurd rfl ha
  | tick =>
    simp only [deliver]
    rw [tick_of_disabled b s hm]
    exact ⟨hm, h1, h2, h3, hd⟩

theorem runDelivered_keeps_zero (b : Nat) (acts : List Action) :
    ∀ s : State, Action.resume ∉ acts →
      (countingEnabled b s = false ∧ s.g_sec = 0 ∧ s.g_min = 0 ∧ s.g_hr = 0 ∧
        s.display = [0, 0, 0, 0, 0, 0]) →
      countingEnabled b (runDelivered b acts s) = false ∧
        (runDelivered b acts s).g_sec = 0 ∧ (runDelivered b acts s).g_min = 0 ∧
        (runDelivered b acts s).g_hr = 0 ∧
        (runDelivered b acts s).display = [0, 0, 0, 0, 0, 0] := by
  induction acts with
  | nil => intro s _ h; exact h
  | cons a acts ih =>
    intro s hn h
    have h1 : a ≠ Action.resume := fun e => hn (e ▸ List.mem_cons_self _ _)
    have h2 : Action.resume ∉ acts := fun e => hn (List.mem_cons_of_mem _ e)
    exact ih (deliver b a s) h2 (deliver_keeps_zero b a h1 s h)

theorem stopwatch_after_reset (s : State) :
    (stopwatch (reset s)).g_sec = 1 ∧ (stopwatch (reset s)).g_min = 0 ∧
      (stopwatch (reset s)).g_hr = 0 := by
  obtain ⟨z1, z2, z3, _⟩ := reset_zero s
  obtain ⟨a1, a2, a3⟩ := stopwatch_elapsed (reset s) 0 (by rw [z1]) (by rw [z2]) (by rw [z3])
  exact ⟨a1, a2, a3⟩

/-! ## The claims -/

/-- C1, bounds invariant: in every state reached from the start-up values by
finitely many calls of `reset`, `pause`, `resume` and `stopwatch`, the seconds
and the minutes are in `0 .. 59` and the hours in `0 .. 23`. -/
theorem bounds_invariant (OCIE1A : Nat) (s : State) (h : Reachable OCIE1A s) :
    (0 ≤ s.g_sec ∧ s.g_sec < 60) ∧ (0 ≤ s.g_min ∧ s.g_min < 60) ∧
      (0 ≤ s.g_hr ∧ s.g_hr < 24) := by
  obtain ⟨⟨h1, h2, h3⟩, _⟩ := reachable_invariant OCIE1A s h
  exact ⟨⟨Nat.zero_le _, h1⟩, ⟨Nat.zero_le _, h2⟩, ⟨Nat.zero_le _, h3⟩⟩

/-- Witness of C1: the state after two ticks, a pause, a tick, a resume, a reset
and one more tick is reachable and within bounds. -/
theorem bounds_invariant_witness :
    Reachable 4 (run 4 [Action.tick, Action.tick, Action.pause, Action.tick, Action.resume,
        Action.reset, Action.tick] (initState 16)) ∧
      (0 ≤ (run 4 [Action.tick, Action.tick, Action.pause, Action.tick, Action.resume,
        Action.reset, Action.tick] (initState 16)).g_sec ∧
        (run 4 [Action.tick, Action.tick, Action.pause, Action.tick, Action.resume,
        Action.reset, Action.tick] (initState 16)).g_sec < 60) :=
  ⟨⟨16, _, rfl⟩, (bounds_invariant 4 _ ⟨16, _, rfl⟩).1⟩

/-- C2, display consistency: in every state reached from the start-up values by
finitely many calls of `reset`, `pause`, `resume` and `stopwatch`, the array
`time[]` holds, at indices `HR2 .. SEC1`, the tens and units digits of the
hours, the minutes and the seconds; at 12:34:56 it is `[1,2,3,4,5,6]`. -/
theorem display_consistency (OCIE1A : Nat) (s : State) (h : Reachable OCIE1A s) :
    s.display = [s.g_hr / 10, s.g_hr % 10, s.g_min / 10, s.g_min % 10, s.g_sec / 10,
        s.g_sec % 10] ∧
      (s.g_hr = 12 ∧ s.g_min = 34 ∧ s.g_sec = 56 → s.display = [1, 2, 3, 4, 5, 6]) := by
  have hd : s.display = s.digits := (reachable_invariant OCIE1A s h).2
  refine ⟨hd, ?_⟩
  rintro ⟨e1, e2, e3⟩
  rw [hd, State.digits, e1, e2, e3]

/-- Witness of C2: 45296 ticks after start-up the counts are 12:34:56 and the
display shows `[1,2,3,4,5,6]`. -/
theorem display_consistency_witness :
    Reachable 4 (run 4 (List.replicate 45296 Action.tick) (initState 16)) ∧
      (run 4 (List.replicate 45296 Action.tick) (initState 16)).g_hr = 12 ∧
      (run 4 (List.replicate 45296 Action.tick) (initState 16)).g_min = 34 ∧
      (run 4 (List.replicate 45296 Action.tick) (initState 16)).g_sec = 56 ∧
      (run 4 (List.replicate 45296 Action.tick) (initState 16)).display =
        [1, 2, 3, 4, 5, 6] := by
  have hr : Reachable 4 (run 4 (List.replicate 45296 Action.tick) (initState 16)) :=
    ⟨16, _, rfl⟩
  have hf := iterate_elapsed 45296 (initState 16) 0 rfl rfl rfl
  rw [← run_replicate_tick 4] at hf
  obtain ⟨e1, e2, e3⟩ := hf
  exact ⟨hr, e3, e2, e1, (display_consistency 4 _ hr).2 ⟨e3, e2, e1⟩⟩

/-- C3, reset clears everything: from every state whatsoever (whatever the
counts, the content of `time[]` and the counting mode), `reset` leaves
`g_sec = g_min = g_hr = 0` and `time[] = [0,0,0,0,0,0]`. -/
theorem reset_yields_zero (s : State) :
    (reset s).g_sec = 0 ∧ (reset s).g_min = 0 ∧ (reset s).g_hr = 0 ∧
      (reset s).display = [0, 0, 0, 0, 0, 0] ∧ ∀ i : Fin 6, (reset s).time i = 0 := by
  refine ⟨rfl, rfl, rfl, ?_, ?_⟩
  · rw [reset_eq, showTime_display]
    simp
  · intro i
    rw [reset_eq, showTime_time]
    simp only [Nat.zero_div, Nat.zero_mod, ite_eq_left_iff]
    have hi : i = HR1 ∨ i = HR2 ∨ i = MIN1 ∨ i = MIN2 ∨ i = SEC1 ∨ i = SEC2 := by
      unfold HR1 HR2 MIN1 MIN2 SEC1 SEC2
      omega
    intros
    simp_all

/-- C4, ticks count elapsed seconds: `n` calls of `stopwatch` from the start-up
values give `g_sec = n % 60`, `g_min = (n / 60) % 60`, `g_hr = (n / 3600) % 24`,
whatever `TIMSK` holds; 60 calls give 0:01:00 and 3600 calls give 1:00:00. -/
theorem ticks_count_seconds (n timsk : Nat) :
    ((stopwatch^[n] (initState timsk)).g_sec = n % 60 ∧
      (stopwatch^[n] (initState timsk)).g_min = (n / 60) % 60 ∧
      (stopwatch^[n] (initState timsk)).g_hr = (n / 3600) % 24) ∧
    ((stopwatch^[60] (initState timsk)).g_hr = 0 ∧
      (stopwatch^[60] (initState timsk)).g_min = 1 ∧
      (stopwatch^[60] (initState timsk)).g_sec = 0) ∧
    ((stopwatch^[3600] (initState timsk)).g_hr = 1 ∧
      (stopwatch^[3600] (initState timsk)).g_min = 0 ∧
      (stopwatch^[3600] (initState timsk)).g_sec = 0) := by
  have key : ∀ k, (stopwatch^[k] (initState timsk)).g_sec = k % 60 ∧
      (stopwatch^[k] (initState timsk)).g_min = (k / 60) % 60 ∧
      (stopwatch^[k] (initState timsk)).g_hr = (k / 3600) % 24 := by
    intro k
    have h := iterate_elapsed k (initState timsk) 0 rfl rfl rfl
    rw [Nat.zero_add] at h
    exact h
  obtain ⟨a1, a2, a3⟩ := key 60
  obtain ⟨b1, b2, b3⟩ := key 3600
  exact ⟨key n, ⟨a3, a2, a1⟩, ⟨b3, b2, b1⟩⟩

/-- C5, full 24-hour wrap: 86400 calls of `stopwatch` from the start-up values
give 0:00:00 again with `time[]` all zeros, and 86400 calls from any state
whose counts are within bounds give the same counts again, with `time[]`
showing their digits. -/
theorem full_day_wrap (timsk : Nat) (s : State)
    (h : s.g_sec < 60 ∧ s.g_min < 60 ∧ s.g_hr < 24) :
    ((stopwatch^[86400] (initState timsk)).g_sec = 0 ∧
      (stopwatch^[86400] (initState timsk)).g_min = 0 ∧
      (stopwatch^[86400] (initState timsk)).g_hr = 0 ∧
      (stopwatch^[86400] (initState timsk)).display = [0, 0, 0, 0, 0, 0]) ∧
    ((stopwatch^[86400] s).g_sec = s.g_sec ∧ (stopwatch^[86400] s).g_min = s.g_min ∧
      (stopwatch^[86400] s).g_hr = s.g_hr ∧
      (stopwatch^[86400] s).display = [s.g_hr / 10, s.g_hr % 10, s.g_min / 10,
        s.g_min % 10, s.g_sec / 10, s.g_sec % 10]) := by
  have key : ∀ u : State, u.inBounds →
      (stopwatch^[86400] u).g_sec = u.g_sec ∧ (stopwatch^[86400] u).g_min = u.g_min ∧
      (stopwatch^[86400] u).g_hr = u.g_hr ∧
      (stopwatch^[86400] u).display = [u.g_hr / 10, u.g_hr % 10, u.g_min / 10,
        u.g_min % 10, u.g_sec / 10, u.g_sec % 10] := by
    intro u hu
    obtain ⟨h1, h2, h3⟩ := hu
    obtain ⟨e1, e2, e3⟩ := iterate_elapsed 86400 u (u.g_hr * 3600 + u.g_min * 60 + u.g_sec)
      (by omega) (by omega) (by omega)
    have f1 : (stopwatch^[86400] u).g_sec = u.g_sec := by omega
    have f2 : (stopwatch^[86400] u).g_min = u.g_min := by omega
    have f3 : (stopwatch^[86400] u).g_hr = u.g_hr := by omega
    refine ⟨f1, f2, f3, ?_⟩
    rw [iterate_display 86399 u ⟨h1, h2, h3⟩, State.digits, f1, f2, f3]
  obtain ⟨z1, z2, z3, z4⟩ := key (initState timsk)
    ⟨Nat.zero_lt_succ 59, Nat.zero_lt_succ 59, Nat.zero_lt_succ 23⟩
  refine ⟨⟨z1, z2, z3, ?_⟩, key s h⟩
  rw [z4]
  simp [initState]

/-- Witness of C5: a full day after 23:59:59 it is 23:59:59 again. -/
theorem full_day_wrap_witness :
    ((59 : Nat) < 60 ∧ (59 : Nat) < 60 ∧ (23 : Nat) < 24) ∧
      (stopwatch^[86400] ⟨fun _ => 0, 59, 59, 23, 16⟩).g_sec = 59 ∧
      (stopwatch^[86400] ⟨fun _ => 0, 59, 59, 23, 16⟩).g_min = 59 ∧
      (stopwatch^[86400] ⟨fun _ => 0, 59, 59, 23, 16⟩).g_hr = 23 ∧
      (stopwatch^[86400] ⟨fun _ => 0, 59, 59, 23, 16⟩).display = [2, 3, 5, 9, 5, 9] :=
  ⟨by decide, (full_day_wrap 16 ⟨fun _ => 0, 59, 59, 23, 16⟩ (by decide)).2⟩

/-- C6, counterexample: in the paused state that `pause` leaves after start-up
(bit `OCIE1A = 4` of `TIMSK` cleared) one call of `stopwatch` is not a no-op: it
moves `g_sec` from 0 to 1 and `time[]` from `[0,0,0,0,0,0]` to `[0,0,0,0,0,1]`. -/
theorem stopwatch_counts_while_paused :
    countingEnabled 4 (pause 4 (initState 0x10)) = false ∧
      (pause 4 (initState 0x10)).g_sec = 0 ∧
      (stopwatch (pause 4 (initState 0x10))).g_sec = 1 ∧
      (pause 4 (initState 0x10)).display = [0, 0, 0, 0, 0, 0] ∧
      (stopwatch (pause 4 (initState 0x10))).display = [0, 0, 0, 0, 0, 1] := by
  decide

/-- C6 as amended: in every state in which bit `OCIE1A` of `TIMSK` is cleared, a
tick delivered through the masked timer interrupt does not reach `stopwatch`
and changes nothing, however often it is delivered, and this is the mode
`pause` leaves; `stopwatch` itself does not look at `TIMSK`: what it does to
the counts and to `time[]` is the same for every content of the register, and
it leaves the register as it was. -/
theorem masked_tick_noop (OCIE1A : Nat) (s : State)
    (h : countingEnabled OCIE1A s = false) :
    tick OCIE1A s = s ∧ (∀ k : Nat, (tick OCIE1A)^[k] s = s) ∧
      tick OCIE1A (pause OCIE1A s) = pause OCIE1A s ∧
      (∀ t : Nat, (stopwatch { s with TIMSK := t }).g_sec = (stopwatch s).g_sec ∧
        (stopwatch { s with TIMSK := t }).g_min = (stopwatch s).g_min ∧
        (stopwatch { s with TIMSK := t }).g_hr = (stopwatch s).g_hr ∧
        (stopwatch { s with TIMSK := t }).time = (stopwatch s).time) ∧
      (stopwatch s).TIMSK = s.TIMSK := by
  have h1 : tick OCIE1A s = s := tick_of_disabled OCIE1A s h
  refine ⟨h1, ?_, tick_of_disabled OCIE1A _ (pause_disables OCIE1A s), ?_,
    stopwatch_TIMSK s⟩
  · intro k
    exact Function.iterate_fixed h1 k
  · intro t
    exact stopwatch_TIMSK_irrelevant s t

/-- Witness of C6 as amended: the state `pause` leaves after start-up. -/
theorem masked_tick_noop_witness :
    countingEnabled 4 (pause 4 (initState 0x10)) = false ∧
      tick 4 (pause 4 (initState 0x10)) = pause 4 (initState 0x10) :=
  ⟨by decide, (masked_tick_noop 4 (pause 4 (initState 0x10)) (by decide)).1⟩

/-- C7, counterexample: after start-up (`g_sec = 0`), `pause`, three calls of
`stopwatch`, `resume` and one more call of `stopwatch` leave `g_sec = 4`, not 1;
and from the reachable state with `g_sec = 59`, `pause`, `resume` and one tick
leave `g_sec = 0` (with `g_min = 1`), not 60, also when the three ticks in
between are delivered through the masked interrupt. -/
theorem paused_calls_are_counted :
    (initState 0x10).g_sec = 0 ∧
      (run 4 ([Action.pause] ++ List.replicate 3 Action.tick ++ [Action.resume, Action.tick])
        (initState 0x10)).g_sec = 4 ∧
      (run 4 (List.replicate 59 Action.tick) (initState 0x10)).g_sec = 59 ∧
      (run 4 [Action.pause, Action.resume, Action.tick]
        (run 4 (List.replicate 59 Action.tick) (initState 0x10))).g_sec = 0 ∧
      (run 4 [Action.pause, Action.resume, Action.tick]
        (run 4 (List.replicate 59 Action.tick) (initState 0x10))).g_min = 1 ∧
      (tick 4 (resume 4 ((tick 4)^[3]
        (pause 4 (run 4 (List.replicate 59 Action.tick) (initState 0x10)))))).g_sec = 0 := by
  have key : ∀ S : State, S.g_sec = 59 → S.g_min = 0 → S.g_hr = 0 →
      S.g_sec = 59 ∧
      (run 4 [Action.pause, Action.resume, Action.tick] S).g_sec = 0 ∧
      (run 4 [Action.pause, Action.resume, Action.tick] S).g_min = 1 ∧
      (tick 4 (resume 4 ((tick 4)^[3] (pause 4 S)))).g_sec = 0 := by
    intro S h1 h2 h3
    obtain ⟨a1, a2, _⟩ := stopwatch_elapsed (resume 4 (pause 4 S)) 59 h1 h2 h3
    obtain ⟨b1, _, _⟩ := stopwatch_elapsed (resume 4 S) 59 h1 h2 h3
    rw [run_pause_resume_tick, masked_ticks_then_tick 4 (by decide), a1, a2, b1]
    exact ⟨h1, rfl, rfl, rfl⟩
  obtain ⟨f1, f2, f3⟩ := iterate_elapsed 59 (initState 0x10) 0 rfl rfl rfl
  rw [← run_replicate_tick 4] at f1 f2 f3
  exact ⟨rfl, by decide, key _ f1 f2 f3⟩

/-- C7 as amended: from every reachable state with seconds value `s`, `pause`,
then `k` ticks delivered through the masked timer interrupt, then `resume`,
then one tick give exactly the state of one call of `stopwatch` after `resume`:
the seconds are `(s + 1) % 60`, that is `s + 1` below 59 and 0 at 59.  The `k`
ticks are dropped by the mask, not by `stopwatch`: `k` calls of `stopwatch`
between `pause` and `resume` count, and the seconds end as `(s + k + 1) % 60`. -/
theorem paused_ticks_dropped (OCIE1A : Nat) (hb : OCIE1A < 8) (s : State)
    (hr : Reachable OCIE1A s) (k : Nat) :
    tick OCIE1A (resume OCIE1A ((tick OCIE1A)^[k] (pause OCIE1A s))) =
        stopwatch (resume OCIE1A s) ∧
      (tick OCIE1A (resume OCIE1A ((tick OCIE1A)^[k] (pause OCIE1A s)))).g_sec =
        (s.g_sec + 1) % 60 ∧
      (s.g_sec < 59 →
        (tick OCIE1A (resume OCIE1A ((tick OCIE1A)^[k] (pause OCIE1A s)))).g_sec =
          s.g_sec + 1) ∧
      (run OCIE1A ([Action.pause] ++ List.replicate k Action.tick ++
        [Action.resume, Action.tick]) s).g_sec = (s.g_sec + k + 1) % 60 := by
  obtain ⟨⟨b1, b2, b3⟩, _⟩ := reachable_invariant OCIE1A s hr
  have e0 := masked_ticks_then_tick OCIE1A hb s k
  have e1 : (stopwatch (resume OCIE1A s)).g_sec = (s.g_sec + 1) % 60 := by
    have h := (stopwatch_elapsed (resume OCIE1A s) (s.g_hr * 3600 + s.g_min * 60 + s.g_sec)
      (show s.g_sec = _ by omega) (show s.g_min = _ by omega) (show s.g_hr = _ by omega)).1
    omega
  refine ⟨e0, by rw [e0, e1], ?_, ?_⟩
  · intro hlt
    rw [e0, e1]
    omega
  · rw [run_append, run_append, run_resume_tick, run_replicate_tick, run_pause]
    obtain ⟨i1, i2, i3⟩ := iterate_elapsed k (pause OCIE1A s)
      (s.g_hr * 3600 + s.g_min * 60 + s.g_sec)
      (show s.g_sec = _ by omega) (show s.g_min = _ by omega) (show s.g_hr = _ by omega)
    have h := (stopwatch_elapsed (resume OCIE1A (stopwatch^[k] (pause OCIE1A s))) _
      i1 i2 i3).1
    omega

/-- Witness of C7 as amended: from 0:00:59, with five ticks while paused. -/
theorem paused_ticks_dropped_witness :
    (4 < 8) ∧ Reachable 4 (run 4 (List.replicate 59 Action.tick) (initState 0x10)) ∧
      (tick 4 (resume 4 ((tick 4)^[5]
        (pause 4 (run 4 (List.replicate 59 Action.tick) (initState 0x10)))))).g_sec =
        ((run 4 (List.replicate 59 Action.tick) (initState 0x10)).g_sec + 1) % 60 :=
  ⟨by decide, ⟨0x10, _, rfl⟩,
    (paused_ticks_dropped 4 (by decide) _ ⟨0x10, _, rfl⟩ 5).2.1⟩

/-- C8, `pause` and `resume` are idempotent and set the mode whatever it was:
for every state `pause (pause x) = pause x` and `resume (resume x) = resume x`,
bit `OCIE1A` of `TIMSK` is 0 after `pause` and 1 after `resume` (`OCIE1A` being
one of the eight bits of the register). -/
theorem pause_resume_idempotent (OCIE1A : Nat) (h : OCIE1A < 8) (x : State) :
    pause OCIE1A (pause OCIE1A x) = pause OCIE1A x ∧
      resume OCIE1A (resume OCIE1A x) = resume OCIE1A x ∧
      countingEnabled OCIE1A (pause OCIE1A x) = false ∧
      countingEnabled OCIE1A (resume OCIE1A x) = true := by
  refine ⟨?_, ?_, pause_disables OCIE1A x, resume_enables OCIE1A h x⟩
  · simp only [pause, clear_clear]
  · simp only [resume, set_set]

/-- Witness of C8: bit 4 of `TIMSK`, from a paused and from a counting state. -/
theorem pause_resume_idempotent_witness :
    (4 < 8) ∧
      (pause 4 (pause 4 (initState 0xEF)) = pause 4 (initState 0xEF) ∧
        resume 4 (resume 4 (initState 0xEF)) = resume 4 (initState 0xEF) ∧
        countingEnabled 4 (pause 4 (initState 0xEF)) = false ∧
        countingEnabled 4 (resume 4 (initState 0xEF)) = true) ∧
      countingEnabled 4 (pause 4 (initState 0xFF)) = false :=
  ⟨by decide, pause_resume_idempotent 4 (by decide) (initState 0xEF),
    (pause_resume_idempotent 4 (by decide) (initState 0xFF)).2.2.1⟩

/-- C9, `pause` and `resume` write nothing but the counting-enable bit: both
leave `g_sec`, `g_min`, `g_hr` and the six entries of `time[]` as they were, and
each of the eight bits of `TIMSK` other than `OCIE1A` keeps its value. -/
theorem pause_resume_frame (OCIE1A : Nat) (s : State) :
    ((pause OCIE1A s).g_sec = s.g_sec ∧ (pause OCIE1A s).g_min = s.g_min ∧
      (pause OCIE1A s).g_hr = s.g_hr ∧ (pause OCIE1A s).time = s.time) ∧
    ((resume OCIE1A s).g_sec = s.g_sec ∧ (resume OCIE1A s).g_min = s.g_min ∧
      (resume OCIE1A s).g_hr = s.g_hr ∧ (resume OCIE1A s).time = s.time) ∧
    (∀ i : Nat, i < 8 → i ≠ OCIE1A →
      (pause OCIE1A s).TIMSK.testBit i = s.TIMSK.testBit i ∧
      (resume OCIE1A s).TIMSK.testBit i = s.TIMSK.testBit i) := by
  refine ⟨⟨rfl, rfl, rfl, rfl⟩, ⟨rfl, rfl, rfl, rfl⟩, ?_⟩
  intro i hi hne
  have hne2 : ¬ OCIE1A = i := fun e => hne e.symm
  rw [pause_testBit, resume_testBit]
  simp [hi, hne2]

/-- Witness of C9: bit 7 of `TIMSK = 0xFF` survives `pause` and `resume` at bit 4. -/
theorem pause_resume_frame_witness :
    (7 < 8) ∧ (7 ≠ 4) ∧
      (pause 4 (initState 0xFF)).TIMSK.testBit 7 = (initState 0xFF).TIMSK.testBit 7 ∧
      (resume 4 (initState 0xFF)).TIMSK.testBit 7 = (initState 0xFF).TIMSK.testBit 7 :=
  ⟨by decide, by decide, (pause_resume_frame 4 (initState 0xFF)).2.2 7 (by decide) (by decide)⟩

/-- C10, at most one display position is active: run for any number of passes
from registers in which none of the lines `PA0 .. PA5` is set (as the
initialisation in `main` leaves them), the refresh loop does not fail and
passes through the program points of `loop_idx = 0 .. 5` in order; at each of
them at most one of the six enable lines of `PORTA` is set: exactly the line
`loop_idx` from the activation until the deactivation, and none before the
activation and after the deactivation. -/
theorem one_position_active (time : Fin 6 → Nat) (n : Nat) (p : Ports)
    (h : activeLines p.PORTA = []) :
    ∃ (tr : List Sample) (q : Ports), whileLoop time n p = some (tr, q) ∧
      activeLines q.PORTA = [] ∧ tr.map Sample.position = scanPoints n ∧
      ∀ x ∈ tr, x.loop_idx < 6 ∧ (activeLines x.ports.PORTA).length ≤ 1 ∧
        (x.point = Point.enabled ∨ x.point = Point.written ∨ x.point = Point.held →
          activeLines x.ports.PORTA = [x.loop_idx]) ∧
        (x.point = Point.entry ∨ x.point = Point.disabled →
          activeLines x.ports.PORTA = []) :=
  whileLoop_oneActive time n p h

/-- Witness of C10: two passes over the display of 12:34:56, entered with only
the unused lines `PA6` and `PA7` set. -/
theorem one_position_active_witness :
    activeLines (Ports.mk 0xC0 0).PORTA = [] ∧
      ∃ (tr : List Sample) (q : Ports),
        whileLoop (fun i => [1, 2, 3, 4, 5, 6].getD i.val 0) 2 (Ports.mk 0xC0 0) =
          some (tr, q) ∧
        activeLines q.PORTA = [] ∧ tr.map Sample.position = scanPoints 2 ∧
        ∀ x ∈ tr, x.loop_idx < 6 ∧ (activeLines x.ports.PORTA).length ≤ 1 ∧
          (x.point = Point.enabled ∨ x.point = Point.written ∨ x.point = Point.held →
            activeLines x.ports.PORTA = [x.loop_idx]) ∧
          (x.point = Point.entry ∨ x.point = Point.disabled →
            activeLines x.ports.PORTA = []) :=
  ⟨by decide, one_position_active _ 2 (Ports.mk 0xC0 0) (by decide)⟩

/-- C11, counterexample: with `time[] = [1,2,3,4,5,6]` (12:34:56), in the first
iteration of a pass bit 0 of `PORTA` is the active enable line and the value
written to `PORTC` is 6, which is `time[5]`, and not `time[0] = 1`; the pass
writes `6, 5, 4, 3, 2, 1` in this order. -/
theorem line_zero_shows_seconds_units :
    ∃ (tr : List Sample) (q : Ports),
      whileLoop (fun i => [1, 2, 3, 4, 5, 6].getD i.val 0) 1 (Ports.mk 0 0) = some (tr, q) ∧
      Sample.mk 0 Point.written (Ports.mk 1 6) ∈ tr ∧ activeLines 1 = [0] ∧
      readsOf tr = [6, 5, 4, 3, 2, 1] ∧
      (fun i : Fin 6 => [1, 2, 3, 4, 5, 6].getD i.val 0) 0 = 1 := by
  have h1 : activeLines 1 = [0] := by decide
  simp [whileLoop, forLoop, refreshBody, readTime, readsOf, h1]

/-- C11 as amended: in every pass of the refresh loop, for every `loop_idx` in
`0 .. 5`, the digit written to `PORTC` and held there while bit `loop_idx` of
`PORTA` is the active enable line is `time[5-loop_idx]`: line 0 shows the
seconds units `time[SEC1]`, line 5 the hours tens `time[HR2]`. -/
theorem digit_of_active_line (time : Fin 6 → Nat) (n : Nat) (p : Ports) :
    ∃ (tr : List Sample) (q : Ports), whileLoop time n p = some (tr, q) ∧
      tr.map Sample.position = scanPoints n ∧
      ∀ x ∈ tr, x.point = Point.written ∨ x.point = Point.held →
        activeLines x.ports.PORTA = [x.loop_idx] ∧
          x.ports.PORTC = time ⟨5 - x.loop_idx, by omega⟩ % 256 := by
  obtain ⟨tr, q, e, hl, _, hg⟩ := whileLoop_showsDigit time n p
  exact ⟨tr, q, e, hl, hg⟩

/-- Witness of C11 as amended: one pass over the display of 12:34:56. -/
theorem digit_of_active_line_witness :
    ∃ (tr : List Sample) (q : Ports),
      whileLoop (fun i => [1, 2, 3, 4, 5, 6].getD i.val 0) 1 (Ports.mk 0 0) = some (tr, q) ∧
      tr.map Sample.position = scanPoints 1 ∧
      ∀ x ∈ tr, x.point = Point.written ∨ x.point = Point.held →
        activeLines x.ports.PORTA = [x.loop_idx] ∧
          x.ports.PORTC =
            (fun i : Fin 6 => [1, 2, 3, 4, 5, 6].getD i.val 0) ⟨5 - x.loop_idx, by omega⟩ % 256 :=
  digit_of_active_line (fun i => [1, 2, 3, 4, 5, 6].getD i.val 0) 1 (Ports.mk 0 0)

/-- C12, registration replaces: for each of the three interrupts and all
functions `f` and `g`, after `setCallBack(f)` and then `setCallBack(g)` the
service routine calls `g` once and nothing else (so not `f`, unless `f` is
`g`), its effect is that of the call of `g`, and the pointers are as if only
`g` had been registered. -/
theorem registration_replaces {α : Type} (call : α → Machine α → Machine α) (f g : α)
    (m : Machine α) :
    (ISR_INT0 call (EXT_INT0_setCallBack (some g) (EXT_INT0_setCallBack (some f) m)) =
        ([g], call g (EXT_INT0_setCallBack (some g) m)) ∧
      ISR_INT1 call (EXT_INT1_setCallBack (some g) (EXT_INT1_setCallBack (some f) m)) =
        ([g], call g (EXT_INT1_setCallBack (some g) m)) ∧
      ISR_INT2 call (EXT_INT2_setCallBack (some g) (EXT_INT2_setCallBack (some f) m)) =
        ([g], call g (EXT_INT2_setCallBack (some g) m))) ∧
    (f ≠ g →
      f ∉ (ISR_INT0 call (EXT_INT0_setCallBack (some g) (EXT_INT0_setCallBack (some f) m))).1 ∧
      f ∉ (ISR_INT1 call (EXT_INT1_setCallBack (some g) (EXT_INT1_setCallBack (some f) m))).1 ∧
      f ∉ (ISR_INT2 call (EXT_INT2_setCallBack (some g) (EXT_INT2_setCallBack (some f) m))).1) := by
  refine ⟨⟨rfl, rfl, rfl⟩, ?_⟩
  intro hne
  simp [ISR_INT0, ISR_INT1, ISR_INT2, EXT_INT0_setCallBack, EXT_INT1_setCallBack,
    EXT_INT2_setCallBack, hne]

/-- Witness of C12: `reset` registered first and `pause` second; the interrupt
then calls `pause` only. -/
theorem registration_replaces_witness :
    Action.reset ≠ Action.pause ∧
      (ISR_INT0 (callAction 4) (EXT_INT0_setCallBack (some Action.pause)
        (EXT_INT0_setCallBack (some Action.reset) (initMachine Action 0x10)))).1 =
        [Action.pause] ∧
      Action.reset ∉ (ISR_INT0 (callAction 4) (EXT_INT0_setCallBack (some Action.pause)
        (EXT_INT0_setCallBack (some Action.reset) (initMachine Action 0x10)))).1 :=
  ⟨by decide,
    congrArg Prod.fst (registration_replaces (callAction 4) Action.reset Action.pause
      (initMachine Action 0x10)).1.1,
    ((registration_replaces (callAction 4) Action.reset Action.pause
      (initMachine Action 0x10)).2 (by decide)).1⟩

/-- C13, an unbound source is ignored: when the callback pointer of an interrupt
is `NULL_PTR`, which it is at start-up, its service routine calls nothing and
leaves the whole state (globals and all three pointers) as it was. -/
theorem unbound_source_ignored {α : Type} (call : α → Machine α → Machine α)
    (m : Machine α) (timsk : Nat) :
    (m.g_callBackPtr_INT0 = none → ISR_INT0 call m = ([], m)) ∧
      (m.g_callBackPtr_INT1 = none → ISR_INT1 call m = ([], m)) ∧
      (m.g_callBackPtr_INT2 = none → ISR_INT2 call m = ([], m)) ∧
      ISR_INT0 call (initMachine α timsk) = ([], initMachine α timsk) ∧
      ISR_INT1 call (initMachine α timsk) = ([], initMachine α timsk) ∧
      ISR_INT2 call (initMachine α timsk) = ([], initMachine α timsk) := by
  refine ⟨?_, ?_, ?_, rfl, rfl, rfl⟩
  · intro h
    simp only [ISR_INT0, h]
  · intro h
    simp only [ISR_INT1, h]
  · intro h
    simp only [ISR_INT2, h]

/-- Witness of C13: with only `INT0` bound, `INT1` fires without effect. -/
theorem unbound_source_ignored_witness :
    (EXT_INT0_setCallBack (some Action.reset) (initMachine Action 0x10)).g_callBackPtr_INT1 =
        none ∧
      ISR_INT1 (callAction 4) (EXT_INT0_setCallBack (some Action.reset)
        (initMachine Action 0x10)) =
        ([], EXT_INT0_setCallBack (some Action.reset) (initMachine Action 0x10)) :=
  ⟨rfl, (unbound_source_ignored (callAction 4) (EXT_INT0_setCallBack (some Action.reset)
    (initMachine Action 0x10)) 0).2.1 rfl⟩

/-- C14, counterexample: from the reachable state 19:59:59, one call of
`stopwatch` that runs to completion between the fifth and the sixth read of a
pass makes the pass read `9, 5, 9, 5, 9, 2` (seconds units first, hours tens
last), that is 29:59:59, which is the decomposition of no valid time. -/
theorem torn_read_of_hours :
    Reachable 4 (run 4 (List.replicate 71999 Action.tick) (initState 0x10)) ∧
      (run 4 (List.replicate 71999 Action.tick) (initState 0x10)).g_hr = 19 ∧
      (run 4 (List.replicate 71999 Action.tick) (initState 0x10)).g_min = 59 ∧
      (run 4 (List.replicate 71999 Action.tick) (initState 0x10)).g_sec = 59 ∧
      ∃ (tr : List Sample) (q : Ports) (s' : State),
        forLoopIrq 4 (tickBefore 5)
          (run 4 (List.replicate 71999 Action.tick) (initState 0x10)) 0 (Ports.mk 0 0) =
          some (tr, q, s') ∧
        readsOf tr = [9, 5, 9, 5, 9, 2] ∧ ¬ isTimeOfDay (readsOf tr) := by
  have hr : Reachable 4 (run 4 (List.replicate 71999 Action.tick) (initState 0x10)) :=
    ⟨0x10, _, rfl⟩
  obtain ⟨f1, f2, f3⟩ := iterate_elapsed 71999 (initState 0x10) 0 rfl rfl rfl
  rw [← run_replicate_tick 4] at f1 f2 f3
  obtain ⟨tr, q, s', e, hd⟩ := torn_hours 4 _ (Ports.mk 0 0) hr f3 f2 f1
  refine ⟨hr, f3, f2, f1, tr, q, s', e, hd, ?_⟩
  rw [hd]
  exact not_isTimeOfDay_29

/-- C14 as amended: the loop reads `time[]` without any synchronisation.  From
every reachable state, with any control actions running to completion before
each of the six reads of a pass, the pass does not fail and every digit it
reads is the digit, at its position, of the counts that are current at the
moment of that read, and those counts are within bounds.  The six digits
therefore always give seconds and minutes below 60, but hours only below 30.
When no action runs between the first and the last read of the pass, the six
digits are those of the one valid time that is current during the pass. -/
theorem reads_follow_current_state (OCIE1A : Nat) (s : State) (h : Reachable OCIE1A s)
    (irq : Nat → List Action) (p : Ports) :
    ∃ (tr : List Sample) (q : Ports) (s' : State),
      forLoopIrq OCIE1A irq s 0 p = some (tr, q, s') ∧
      tr.map Sample.position = passPoints 0 6 ∧
      readsOf tr =
        [(stateAt OCIE1A irq s 0).g_sec % 10, (stateAt OCIE1A irq s 1).g_sec / 10,
          (stateAt OCIE1A irq s 2).g_min % 10, (stateAt OCIE1A irq s 3).g_min / 10,
          (stateAt OCIE1A irq s 4).g_hr % 10, (stateAt OCIE1A irq s 5).g_hr / 10] ∧
      (∀ k : Nat, Reachable OCIE1A (stateAt OCIE1A irq s k) ∧
        (stateAt OCIE1A irq s k).g_sec < 60 ∧ (stateAt OCIE1A irq s k).g_min < 60 ∧
        (stateAt OCIE1A irq s k).g_hr < 24) ∧
      (∃ hh mm ss : Nat, hh < 30 ∧ mm < 60 ∧ ss < 60 ∧
        readsOf tr = [ss % 10, ss / 10, mm % 10, mm / 10, hh % 10, hh / 10]) ∧
      ((∀ k : Nat, 1 ≤ k → k ≤ 5 → irq k = []) →
        isTimeOfDay (readsOf tr) ∧
        readsOf tr =
          [(run OCIE1A (irq 0) s).g_sec % 10, (run OCIE1A (irq 0) s).g_sec / 10,
            (run OCIE1A (irq 0) s).g_min % 10, (run OCIE1A (irq 0) s).g_min / 10,
            (run OCIE1A (irq 0) s).g_hr % 10, (run OCIE1A (irq 0) s).g_hr / 10]) := by
  obtain ⟨tr, q, s', e, hl, hd⟩ := forLoopIrq_digits OCIE1A irq s h p
  have hb : ∀ k : Nat, Reachable OCIE1A (stateAt OCIE1A irq s k) ∧
      (stateAt OCIE1A irq s k).g_sec < 60 ∧ (stateAt OCIE1A irq s k).g_min < 60 ∧
      (stateAt OCIE1A irq s k).g_hr < 24 := by
    intro k
    have hk := reachable_stateAt OCIE1A irq s h k
    obtain ⟨⟨b1, b2, b3⟩, _⟩ := reachable_invariant OCIE1A _ hk
    exact ⟨hk, b1, b2, b3⟩
  refine ⟨tr, q, s', e, hl, hd, hb, ?_, ?_⟩
  · obtain ⟨_, a0, _, _⟩ := hb 0
    obtain ⟨_, a1, _, _⟩ := hb 1
    obtain ⟨_, _, a2, _⟩ := hb 2
    obtain ⟨_, _, a3, _⟩ := hb 3
    obtain ⟨_, _, _, a4⟩ := hb 4
    obtain ⟨_, _, _, a5⟩ := hb 5
    refine ⟨(stateAt OCIE1A irq s 5).g_hr / 10 * 10 + (stateAt OCIE1A irq s 4).g_hr % 10,
      (stateAt OCIE1A irq s 3).g_min / 10 * 10 + (stateAt OCIE1A irq s 2).g_min % 10,
      (stateAt OCIE1A irq s 1).g_sec / 10 * 10 + (stateAt OCIE1A irq s 0).g_sec % 10,
      by omega, by omega, by omega, ?_⟩
    rw [hd]
    simp only [List.cons.injEq, and_true]
    refine ⟨?_, ?_, ?_, ?_, ?_, ?_⟩ <;> omega
  · intro hq
    have hs : ∀ k, k ≤ 5 → stateAt OCIE1A irq s k = run OCIE1A (irq 0) s :=
      stateAt_quiet OCIE1A irq s 5 hq
    have hd' := hd
    rw [hs 0 (by omega), hs 1 (by omega), hs 2 (by omega), hs 3 (by omega),
      hs 4 (by omega), hs 5 (by omega)] at hd'
    refine ⟨?_, hd'⟩
    obtain ⟨_, c1, c2, c3⟩ := hb 0
    rw [hs 0 (by omega)] at c1 c2 c3
    exact ⟨_, _, _, c3, c2, c1, hd'⟩

/-- Witness of C14 as amended: a pass from 19:59:59 with one tick before the
first read and none afterwards reads the digits of a valid time. -/
theorem reads_follow_current_state_witness :
    Reachable 4 (run 4 (List.replicate 71999 Action.tick) (initState 0x10)) ∧
      ∃ (tr : List Sample) (q : Ports) (s' : State),
        forLoopIrq 4 (tickBefore 0)
          (run 4 (List.replicate 71999 Action.tick) (initState 0x10)) 0 (Ports.mk 0 0) =
          some (tr, q, s') ∧
        isTimeOfDay (readsOf tr) := by
  have hr : Reachable 4 (run 4 (List.replicate 71999 Action.tick) (initState 0x10)) :=
    ⟨0x10, _, rfl⟩
  obtain ⟨tr, q, s', e, _, _, _, _, hq⟩ :=
    reads_follow_current_state 4 _ hr (tickBefore 0)
      (Ports.mk 0 0)
  have h0 : ∀ k : Nat, 1 ≤ k → k ≤ 5 → tickBefore 0 k = [] := by
    intro k h1 _
    exact if_neg (by omega)
  exact ⟨hr, tr, q, s', e, (hq h0).1⟩

/-- C15, start-up binding: after the three registrations of `main`, whatever the
globals have become since, `INT0` calls `reset` and nothing else, `INT1` calls
`pause`, `INT2` calls `resume`; the globals afterwards are those of `reset()`,
`pause()` and `resume()`, and the pointers stay as registered. -/
theorem startup_binding (OCIE1A : Nat) (m : Machine Action) (g : State) :
    ISR_INT0 (callAction OCIE1A) { mainRegister m with globals := g } =
        ([Action.reset], { mainRegister m with globals := reset g }) ∧
      ISR_INT1 (callAction OCIE1A) { mainRegister m with globals := g } =
        ([Action.pause], { mainRegister m with globals := pause OCIE1A g }) ∧
      ISR_INT2 (callAction OCIE1A) { mainRegister m with globals := g } =
        ([Action.resume], { mainRegister m with globals := resume OCIE1A g }) := by
  refine ⟨?_, ?_, ?_⟩ <;>
    simp only [ISR_INT0, ISR_INT1, ISR_INT2, mainRegister, EXT_INT0_setCallBack,
      EXT_INT1_setCallBack, EXT_INT2_setCallBack, callAction, step]

/-- C16, every displayed value is a decimal digit: in every state reached from
the start-up values by `reset`, `pause`, `resume` and `stopwatch`, each entry of
`time[]` is in `0 .. 9` (so it fits in the four decoder lines, as does each value
a pass of the refresh loop writes to `PORTC`), the hours tens are at most 2 and
the minutes tens and the seconds tens at most 5. -/
theorem displayed_values_are_digits (OCIE1A : Nat) (s : State) (h : Reachable OCIE1A s) :
    (∀ i : Fin 6, 0 ≤ s.time i ∧ s.time i ≤ 9 ∧ s.time i < 2 ^ 4) ∧
      s.time HR2 ≤ 2 ∧ s.time MIN2 ≤ 5 ∧ s.time SEC2 ≤ 5 ∧
      ∀ d ∈ passDigits s.time, d ≤ 9 ∧ d < 2 ^ 4 := by
  obtain ⟨h9, h2, h5, h5'⟩ := reachable_digits OCIE1A s h
  refine ⟨fun i => ⟨Nat.zero_le _, h9 i, by have := h9 i; omega⟩, h2, h5, h5', ?_⟩
  intro d hd
  simp only [passDigits, List.mem_cons, List.mem_singleton, List.not_mem_nil, or_false] at hd
  have a0 := h9 0
  have a1 := h9 1
  have a2 := h9 2
  have a3 := h9 3
  have a4 := h9 4
  have a5 := h9 5
  rcases hd with rfl | rfl | rfl | rfl | rfl | rfl <;> omega

/-- Witness of C16: the display 45296 ticks after start-up (12:34:56). -/
theorem displayed_values_are_digits_witness :
    Reachable 4 (run 4 (List.replicate 45296 Action.tick) (initState 0x10)) ∧
      (run 4 (List.replicate 45296 Action.tick) (initState 0x10)).time HR2 ≤ 2 ∧
      (run 4 (List.replicate 45296 Action.tick) (initState 0x10)).time MIN2 ≤ 5 ∧
      (run 4 (List.replicate 45296 Action.tick) (initState 0x10)).time SEC2 ≤ 5 :=
  ⟨⟨0x10, _, rfl⟩,
    (displayed_values_are_digits 4 _ ⟨0x10, _, rfl⟩).2.1,
    (displayed_values_are_digits 4 _ ⟨0x10, _, rfl⟩).2.2.1,
    (displayed_values_are_digits 4 _ ⟨0x10, _, rfl⟩).2.2.2.1⟩

/-- C17, stable, complete, in-range scan: for every `loop_idx` in `0 .. 5` the
index `5 - loop_idx` is within `0 .. 5` and the read of `time[]` succeeds;
different values of `loop_idx` read different entries; every pass puts out the
six entries `time[5], time[4], .., time[0]`, each once and in this order, and
passes through the same program points in the same order. -/
theorem scan_is_stable (time : Fin 6 → Nat) (n : Nat) (p : Ports) :
    (∀ i : Nat, i < 6 → (0 : Int) ≤ 5 - (i : Int) ∧ 5 - (i : Int) < 6 ∧
        readTime time (5 - (i : Int)) = some (time ⟨5 - i, by omega⟩)) ∧
      (∀ i j : Nat, i < 6 → j < 6 → (5 : Int) - (i : Int) = 5 - (j : Int) → i = j) ∧
      ∃ (tr : List Sample) (q : Ports), whileLoop time n p = some (tr, q) ∧
        tr.map Sample.position = scanPoints n ∧
        readsOf tr = (List.replicate n (passDigits time)).flatten := by
  refine ⟨?_, ?_, ?_⟩
  · intro i hi
    exact ⟨by omega, by omega, readTime_index time i hi⟩
  · intro i j _ _ h
    omega
  · obtain ⟨tr, q, e, hl, hr, _⟩ := whileLoop_showsDigit time n p
    exact ⟨tr, q, e, hl, hr⟩

/-- Witness of C17: the read of iteration `loop_idx = 3` over the display of
12:34:56, and two passes over it. -/
theorem scan_is_stable_witness :
    (3 < 6) ∧
      readTime (fun i => [1, 2, 3, 4, 5, 6].getD i.val 0) (5 - ((3 : Nat) : Int)) = some 3 ∧
      ∃ (tr : List Sample) (q : Ports),
        whileLoop (fun i => [1, 2, 3, 4, 5, 6].getD i.val 0) 2 (Ports.mk 0 0) = some (tr, q) ∧
        tr.map Sample.position = scanPoints 2 ∧
        readsOf tr = [6, 5, 4, 3, 2, 1, 6, 5, 4, 3, 2, 1] :=
  ⟨by decide,
    ((scan_is_stable (fun i => [1, 2, 3, 4, 5, 6].getD i.val 0) 2 (Ports.mk 0 0)).1 3
      (by decide)).2.2,
    (scan_is_stable (fun i => [1, 2, 3, 4, 5, 6].getD i.val 0) 2 (Ports.mk 0 0)).2.2⟩

/-- C18, counterexample: after `pause()` and `reset()` the stopwatch is paused
at 0:00:00, and one call of `stopwatch()`, with `resume()` not called, leaves it
paused but at 0:00:01: `g_sec = 1` and `time[] = [0,0,0,0,0,1]`. -/
theorem paused_reset_then_stopwatch_counts :
    countingEnabled 4 (pause 4 (initState 0x10)) = false ∧
      (reset (pause 4 (initState 0x10))).g_sec = 0 ∧
      countingEnabled 4 (reset (pause 4 (initState 0x10))) = false ∧
      Action.resume ∉ [Action.tick] ∧
      countingEnabled 4 (run 4 [Action.tick] (reset (pause 4 (initState 0x10)))) = false ∧
      (run 4 [Action.tick] (reset (pause 4 (initState 0x10)))).g_sec = 1 ∧
      (run 4 [Action.tick] (reset (pause 4 (initState 0x10)))).display =
        [0, 0, 0, 0, 0, 1] := by
  decide

/-- C18 as amended: `reset` and `stopwatch` never change the counting mode:
`TIMSK` is the same after `reset()` and after `stopwatch()` as before.  A
`reset()` while paused leaves 0:00:00 on the display with the mode still
paused, and the mode stays paused under any further calls of `reset`, `pause`
and `stopwatch`, that is, until `resume()` is called.  The time stays at 0:00:00
until then under `reset`, `pause` and ticks that come through the masked timer
interrupt; `stopwatch` itself is not held back by the mode: called right after
the reset it leaves 0:00:01 with the mode still paused. -/
theorem reset_and_tick_keep_mode (OCIE1A : Nat) (s : State) :
    ((reset s).TIMSK = s.TIMSK ∧ (stopwatch s).TIMSK = s.TIMSK ∧
      countingEnabled OCIE1A (reset s) = countingEnabled OCIE1A s ∧
      countingEnabled OCIE1A (stopwatch s) = countingEnabled OCIE1A s) ∧
    (countingEnabled OCIE1A s = false →
      countingEnabled OCIE1A (reset s) = false ∧
      (reset s).g_hr = 0 ∧ (reset s).g_min = 0 ∧ (reset s).g_sec = 0 ∧
      (reset s).display = [0, 0, 0, 0, 0, 0] ∧
      (∀ acts : List Action, Action.resume ∉ acts →
        countingEnabled OCIE1A (run OCIE1A acts (reset s)) = false) ∧
      (∀ acts : List Action, Action.resume ∉ acts →
        countingEnabled OCIE1A (runDelivered OCIE1A acts (reset s)) = false ∧
        (runDelivered OCIE1A acts (reset s)).g_hr = 0 ∧
        (runDelivered OCIE1A acts (reset s)).g_min = 0 ∧
        (runDelivered OCIE1A acts (reset s)).g_sec = 0 ∧
        (runDelivered OCIE1A acts (reset s)).display = [0, 0, 0, 0, 0, 0]) ∧
      (countingEnabled OCIE1A (stopwatch (reset s)) = false ∧
        (stopwatch (reset s)).g_hr = 0 ∧ (stopwatch (reset s)).g_min = 0 ∧
        (stopwatch (reset s)).g_sec = 1)) := by
  have e1 := reset_TIMSK s
  have e2 := stopwatch_TIMSK s
  have e3 := reset_keeps_mode OCIE1A s
  have e4 := stopwatch_keeps_mode OCIE1A s
  refine ⟨⟨e1, e2, e3, e4⟩, ?_⟩
  intro h
  have h' : countingEnabled OCIE1A (reset s) = false := by rw [e3, h]
  obtain ⟨z1, z2, z3, z4⟩ := reset_zero s
  obtain ⟨w1, w2, w3⟩ := stopwatch_after_reset s
  refine ⟨h', z3, z2, z1, z4, ?_, ?_, ?_, w3, w2, w1⟩
  · intro acts hn
    exact run_keeps_disabled OCIE1A acts (reset s) hn h'
  · intro acts hn
    obtain ⟨r0, r1, r2, r3, r4⟩ :=
      runDelivered_keeps_zero OCIE1A acts (reset s) hn ⟨h', z1, z2, z3, z4⟩
    exact ⟨r0, r3, r2, r1, r4⟩
  · rw [stopwatch_keeps_mode, h']

/-- Witness of C18 as amended: `reset` in the paused state after one tick, then
two masked ticks, a `pause` and another `reset`. -/
theorem reset_and_tick_keep_mode_witness :
    countingEnabled 4 (pause 4 (stopwatch (initState 0x10))) = false ∧
      countingEnabled 4 (reset (pause 4 (stopwatch (initState 0x10)))) = false ∧
      (reset (pause 4 (stopwatch (initState 0x10)))).display = [0, 0, 0, 0, 0, 0] ∧
      Action.resume ∉ [Action.tick, Action.tick, Action.pause, Action.reset] ∧
      (runDelivered 4 [Action.tick, Action.tick, Action.pause, Action.reset]
        (reset (pause 4 (stopwatch (initState 0x10))))).g_sec = 0 :=
  ⟨pause_disables 4 _,
    ((reset_and_tick_keep_mode 4 (pause 4 (stopwatch (initState 0x10)))).2
      (pause_disables 4 _)).1,
    ((reset_and_tick_keep_mode 4 (pause 4 (stopwatch (initState 0x10)))).2
      (pause_disables 4 _)).2.2.2.2.1,
    by decide,
    (((reset_and_tick_keep_mode 4 (pause 4 (stopwatch (initState 0x10)))).2
      (pause_disables 4 _)).2.2.2.2.2.2.1
      [Action.tick, Action.tick, Action.pause, Action.reset] (by decide)).2.2.2.1⟩

/-- C19, `EXT_INT_init` writes only the sense-control field of the selected
interrupt: `intNum = 0` sets bits 1:0 of `MCUCR` to the logic value and leaves
its bits 7:2 as they were; `intNum = 1` sets bits 3:2 of `MCUCR` to the logic
value and leaves bits 7:4 and 1:0 as they were; `intNum = 2` sets bit 6 of
`MCUCSR` to the lowest bit of the logic value and leaves its other bits as they
were; in each case the other of the two registers is untouched, and for any
other `intNum` no register is changed. -/
theorem init_writes_sense_field (d : Device) (c : EXT_INT_ConfigType) (r : Regs) :
    (c.intNum = 0 →
      (EXT_INT_init d c r).MCUCR % 4 = c.logic.toNat ∧
      (∀ i : Nat, 2 ≤ i → i < 8 →
        (EXT_INT_init d c r).MCUCR.testBit i = r.MCUCR.testBit i) ∧
      (EXT_INT_init d c r).MCUCSR = r.MCUCSR) ∧
    (c.intNum = 1 →
      (EXT_INT_init d c r).MCUCR / 4 % 4 = c.logic.toNat ∧
      (∀ i : Nat, i < 2 ∨ 4 ≤ i → i < 8 →
        (EXT_INT_init d c r).MCUCR.testBit i = r.MCUCR.testBit i) ∧
      (EXT_INT_init d c r).MCUCSR = r.MCUCSR) ∧
    (c.intNum = 2 →
      (EXT_INT_init d c r).MCUCSR / 64 % 2 = c.logic.toNat % 2 ∧
      (∀ i : Nat, i ≠ 6 → i < 8 →
        (EXT_INT_init d c r).MCUCSR.testBit i = r.MCUCSR.testBit i) ∧
      (EXT_INT_init d c r).MCUCR = r.MCUCR) ∧
    (c.intNum ≠ 0 → c.intNum ≠ 1 → c.intNum ≠ 2 → EXT_INT_init d c r = r) := by
  refine ⟨?_, ?_, ?_, fun h0 h1 h2 => EXT_INT_init_other d c h0 h1 h2 r⟩
  · intro h
    obtain ⟨e1, e2⟩ := EXT_INT_init_zero d c h r
    rw [e1, e2]
    refine ⟨senseValue0 _ _, ?_, rfl⟩
    intro i h2 h8
    rw [senseField0 _ _ i h8, if_neg (by omega)]
  · intro h
    obtain ⟨e1, e2⟩ := EXT_INT_init_one d c h r
    rw [e1, e2]
    refine ⟨senseValue1 _ _, ?_, rfl⟩
    intro i h2 h8
    rw [senseField1 _ _ i h8, if_neg (by omega)]
  · intro h
    obtain ⟨e1, e2⟩ := EXT_INT_init_two d c h r
    rw [e1, e2]
    refine ⟨senseValue2 _ _, ?_, rfl⟩
    intro i h6 h8
    rw [senseField2 _ _ i h8, if_neg h6]

/-- Witness of C19: the configuration `{0, FALLING_EDGE, INTERNAL_PULL_UP}` that
`main` uses for `INT0`, on `MCUCR = 0xFF`, with the usual bit macros. -/
theorem init_writes_sense_field_witness :
    (EXT_INT_ConfigType.mk 0 EXT_INT_Logic.FALLING_EDGE
        EXT_INT_Resistor.INTERNAL_PULL_UP).intNum = 0 ∧
      (EXT_INT_init
        (Device.mk (fun reg bit => (reg ||| (1 <<< bit)) % 256)
          (fun reg bit => (reg &&& (0xFFFF ^^^ (1 <<< bit))) % 256) 6 7 5 2 3 2)
        (EXT_INT_ConfigType.mk 0 EXT_INT_Logic.FALLING_EDGE EXT_INT_Resistor.INTERNAL_PULL_UP)
        (Regs.mk 0xFF 0 0 0xFF 0 0 0)).MCUCR % 4 = 2 :=
  ⟨rfl, ((init_writes_sense_field _ _ _).1 rfl).1⟩

end DigitalStopwatch
